import Mathlib

/-! mangos-tbc: packet codec, framing, dispatch, the petition, guild and chat
handlers, and the configuration file.

A shallow embedding of the parts of the server that the verified properties
talk about.

* Bytes are natural numbers below 256; a message body is a `List Nat`.
* `std::string` values (packet strings, configuration text) are lists of
  bytes.
* Stateful code is written in state-passing style: a read returns its result
  together with the cursor after the read, a handler returns the list of the
  effects it performed in order.

The packet classes (`ByteBuffer`, `WorldPacket`), the socket framing and the
opcode table are not part of the source files at hand; their definitions
below are marked as modelled from the specification.
-/

set_option autoImplicit false

namespace Mangos

/-! ## Field cursor codec -/

/-- Failure kinds of the field cursor codec. -/
inductive CodecError where
  | TruncatedMessage
  | UnterminatedString
deriving DecidableEq, Repr

/-- Modelled from the spec: the Cursor of section 3 (the packet class
`ByteBuffer` is missing from the sources): an owned byte sequence and an
offset into it. -/
structure Cursor where
  buffer : List Nat
  position : Nat
deriving DecidableEq, Repr

/-- Little-endian encoding of `n` on `w` bytes (the value is reduced modulo
`256 ^ w`, as a store into a `w`-byte machine integer does). -/
def encodeLE : Nat → Nat → List Nat
  | 0, _ => []
  | w + 1, n => n % 256 :: encodeLE w (n / 256)

/-- Little-endian value of a byte sequence. -/
def decodeLE : List Nat → Nat
  | [] => 0
  | b :: bs => b + 256 * decodeLE bs

/-- Bytes between the read position and the end of the body. -/
def Cursor.remaining (c : Cursor) : Nat :=
  c.buffer.length - c.position

/-- A read cursor bound to an inbound message body. -/
def Cursor.forRead (body : List Nat) : Cursor :=
  { buffer := body, position := 0 }

/-- A write cursor for a reply under construction. -/
def Cursor.forWrite : Cursor :=
  { buffer := [], position := 0 }

/-- Modelled from the spec: a fixed-width read of section 4.2 (missing:
`ByteBuffer::read<T>`). The bound is checked before the position changes;
on success the position advances by exactly the width. -/
def readFixed (w : Nat) (c : Cursor) : Except CodecError Nat × Cursor :=
  if c.remaining < w then
    (Except.error CodecError.TruncatedMessage, c)
  else
    (Except.ok (decodeLE ((c.buffer.drop c.position).take w)),
      { c with position := c.position + w })

/-- Modelled from the spec: `ReadU8` of section 4.2. -/
def ReadU8 (c : Cursor) : Except CodecError Nat × Cursor := readFixed 1 c

/-- Modelled from the spec: `ReadU16` of section 4.2. -/
def ReadU16 (c : Cursor) : Except CodecError Nat × Cursor := readFixed 2 c

/-- Modelled from the spec: `ReadU32` of section 4.2. -/
def ReadU32 (c : Cursor) : Except CodecError Nat × Cursor := readFixed 4 c

/-- Modelled from the spec: `ReadU64` of section 4.2. -/
def ReadU64 (c : Cursor) : Except CodecError Nat × Cursor := readFixed 8 c

/-- Modelled from the spec: `ReadIdentifier` of section 4.2 in its
fixed-width form (missing: `operator>>(ByteBuffer&, ObjectGuid&)`), an opaque
64-bit token. -/
def ReadIdentifier (c : Cursor) : Except CodecError Nat × Cursor := readFixed 8 c

/-- Modelled from the spec: `Skip(n)` of section 4.2 (missing:
`ByteBuffer::read_skip`): advances without interpreting. -/
def Skip (n : Nat) (c : Cursor) : Except CodecError Unit × Cursor :=
  if c.remaining < n then
    (Except.error CodecError.TruncatedMessage, c)
  else
    (Except.ok (), { c with position := c.position + n })

/-- Modelled from the spec: `ReadString` of section 4.2 (missing:
`operator>>(ByteBuffer&, std::string&)`): reads bytes until and including a
terminating zero byte and returns the string without the terminator; fails
with `UnterminatedString` when no zero byte is found before the body ends. -/
def ReadString (c : Cursor) : Except CodecError (List Nat) × Cursor :=
  let rest := c.buffer.drop c.position
  let s := rest.takeWhile (fun b => b != 0)
  if s.length < rest.length then
    (Except.ok s, { c with position := c.position + s.length + 1 })
  else
    (Except.error CodecError.UnterminatedString, c)

/-- Modelled from the spec: a fixed-width write of section 4.2 (missing:
`ByteBuffer::append<T>`): appends the bytes and grows the buffer. -/
def writeFixed (w : Nat) (v : Nat) (c : Cursor) : Cursor :=
  { buffer := c.buffer ++ encodeLE w v, position := c.position + w }

/-- Modelled from the spec: `WriteU8` of section 4.2. -/
def WriteU8 (v : Nat) (c : Cursor) : Cursor := writeFixed 1 v c

/-- Modelled from the spec: `WriteU16` of section 4.2. -/
def WriteU16 (v : Nat) (c : Cursor) : Cursor := writeFixed 2 v c

/-- Modelled from the spec: `WriteU32` of section 4.2. -/
def WriteU32 (v : Nat) (c : Cursor) : Cursor := writeFixed 4 v c

/-- Modelled from the spec: `WriteU64` of section 4.2. -/
def WriteU64 (v : Nat) (c : Cursor) : Cursor := writeFixed 8 v c

/-- Modelled from the spec: `WriteIdentifier` of section 4.2 in its
fixed-width form (missing: `operator<<(ByteBuffer&, ObjectGuid const&)`). -/
def WriteIdentifier (g : Nat) (c : Cursor) : Cursor := writeFixed 8 g c

/-- Modelled from the spec: `WriteString` of sections 4.2 and 6 (missing:
`operator<<(ByteBuffer&, std::string const&)`): the raw bytes followed by a
single zero byte. -/
def WriteString (s : List Nat) (c : Cursor) : Cursor :=
  { buffer := c.buffer ++ s ++ [0], position := c.position + s.length + 1 }

/-! ## PetitionsHandler.cpp: the rename opcode -/

/-- The request parse of `WorldSession::HandlePetitionRenameOpcode`:
`recv_data >> petitionGuid; recv_data >> newname;`. -/
def HandlePetitionRenameOpcode_parse (c : Cursor) :
    Except CodecError (Nat × List Nat) × Cursor :=
  match ReadIdentifier c with
  | (Except.error e, c1) => (Except.error e, c1)
  | (Except.ok petitionGuid, c1) =>
    match ReadString c1 with
    | (Except.error e, c2) => (Except.error e, c2)
    | (Except.ok newname, c2) => (Except.ok (petitionGuid, newname), c2)

/-- The reply body of `WorldSession::HandlePetitionRenameOpcode`:
`data << ObjectGuid(petitionGuid); data << newname;`. -/
def HandlePetitionRenameOpcode_reply (petitionGuid : Nat) (newname : List Nat) : List Nat :=
  (WriteString newname (WriteIdentifier petitionGuid Cursor.forWrite)).buffer

/-- Sequencing of two packet reads: the second runs on the cursor left by the
first; a failure stops the sequence (the C++ exception leaves the handler). -/
def readThen {α β : Type} (r : Except CodecError α × Cursor)
    (k : α → Cursor → Except CodecError β × Cursor) : Except CodecError β × Cursor :=
  match r with
  | (Except.error e, c) => (Except.error e, c)
  | (Except.ok a, c) => k a c

/-! ## PetitionsHandler.cpp: the buy opcode -/

/-- The request parse of `WorldSession::HandlePetitionBuyOpcode` (the reads
and `read_skip` calls at the head of the handler); the result is
`(guidNPC, name, clientIndex)`. -/
def HandlePetitionBuyOpcode_parse (recv_data : Cursor) :
    Except CodecError (Nat × List Nat × Nat) × Cursor :=
  readThen (ReadIdentifier recv_data) fun guidNPC c =>
  readThen (Skip 4 c) fun _ c =>
  readThen (Skip 8 c) fun _ c =>
  readThen (ReadString c) fun name c =>
  readThen (Skip 4 c) fun _ c =>
  readThen (Skip 4 c) fun _ c =>
  readThen (Skip 4 c) fun _ c =>
  readThen (Skip 4 c) fun _ c =>
  readThen (Skip 4 c) fun _ c =>
  readThen (Skip 4 c) fun _ c =>
  readThen (Skip 4 c) fun _ c =>
  readThen (Skip 4 c) fun _ c =>
  readThen (Skip 4 c) fun _ c =>
  readThen (Skip 4 c) fun _ c =>
  readThen (Skip 2 c) fun _ c =>
  readThen (Skip 1 c) fun _ c =>
  readThen (ReadU32 c) fun clientIndex c =>
  readThen (Skip 4 c) fun _ c =>
  (Except.ok (guidNPC, name, clientIndex), c)

/-! ## PetitionsHandler.cpp: turning in a petition -/

/-- Result codes sent with `SMSG_TURN_IN_PETITION_RESULTS`. -/
inductive PetitionTurn where
  | PETITION_TURN_OK
  | PETITION_TURN_ALREADY_IN_GUILD
  | PETITION_TURN_NEED_MORE_SIGNATURES
deriving DecidableEq, Repr

/-- Command tags of `SendGuildCommandResult`. -/
inductive GuildCommand where
  | GUILD_CREATE_S
  | GUILD_INVITE_S
  | GUILD_QUIT_S
  | GUILD_FOUNDER_S
deriving DecidableEq, Repr

/-- Result codes of `SendGuildCommandResult`. -/
inductive GuildCommandError where
  | ERR_GUILD_COMMAND_SUCCESS
  | ERR_GUILD_PLAYER_NOT_IN_GUILD
  | ERR_GUILD_PERMISSIONS
  | ERR_GUILD_NAME_EXISTS_S
  | ERR_GUILD_NAME_INVALID
  | ERR_GUILD_PLAYER_NOT_IN_GUILD_S
  | ERR_GUILD_RANK_TOO_HIGH_S
  | ERR_GUILD_RANK_TOO_LOW_S
  | ERR_GUILD_LEADER_LEAVE
deriving DecidableEq, Repr

/-- Result codes of `SendArenaTeamCommandResult` used when a team is created. -/
inductive ArenaTeamCommandError where
  | ERR_ALREADY_IN_ARENA_TEAM
  | ERR_ARENA_TEAM_NAME_EXISTS_S
  | ERR_ARENA_TEAM_NAME_INVALID
deriving DecidableEq, Repr

/-- One row of the `petition` table as `HandleTurnInPetitionOpcode` selects it. -/
structure PetitionRow where
  ownerguid : Nat
  name : List Nat
  type : Nat
deriving DecidableEq, Repr

/-- What `HandleTurnInPetitionOpcode` asks of the database, the player and the
object managers. The functions stand for code outside the handler. -/
structure TurnInWorld where
  -- `petitionGuid.GetCounter()`
  GetCounter : Nat → Nat
  -- `ObjectGuid(HIGHGUID_PLAYER, low)`
  playerGuidOf : Nat → Nat
  -- `SELECT ownerguid, name, type FROM petition WHERE petitionguid = ...`
  petition : Nat → Option PetitionRow
  -- `SELECT playerguid FROM petition_sign WHERE petitionguid = ...`
  petition_sign : Nat → List Nat
  -- `_player->GetObjectGuid()`
  playerGuid : Nat
  -- `_player->GetGuildId()`
  playerGuildId : Nat
  -- `_player->GetArenaTeamId(slot)`
  playerArenaTeamId : Nat → Nat
  IsArenaTypeValid : Nat → Bool
  GetSlotByType : Nat → Nat
  MAX_ARENA_SLOT : Nat
  CONFIG_UINT32_MIN_PETITION_SIGNS : Nat
  -- `sGuildMgr.GetGuildByName(name)` finds a guild
  GetGuildByName : List Nat → Bool
  -- `sObjectMgr.GetArenaTeamByName(name)` finds a team
  GetArenaTeamByName : List Nat → Bool
  -- `_player->GetItemByGuid(petitionGuid)` finds the charter
  GetItemByGuid : Nat → Bool
  -- `sObjectMgr.GetPlayer(guid)` finds an online player with a session
  GetPlayer : Nat → Bool
  -- `guild->Create(_player, name)` succeeds
  guildCreate : List Nat → Bool
  -- `at->Create(captain, type, name)` succeeds
  arenaTeamCreate : Nat → Nat → List Nat → Bool

/-- The changes of game state and the packets sent by
`HandleTurnInPetitionOpcode`, in the order the handler performs them. -/
inductive TurnInEffect where
  | LogError
  | SendTurnInResult (code : PetitionTurn)
  | SendGuildCommandResult (typecmd : GuildCommand) (str : List Nat) (cmdresult : GuildCommandError)
  | SendArenaTeamCommandResult (team : List Nat) (cmdresult : ArenaTeamCommandError)
  | DestroyItem (petitionGuid : Nat)
  | GuildCreate (leader : Nat) (name : List Nat)
  | AddGuild
  | GuildAddMember (guid : Nat)
  | LogGuildEventJoin (guid : Nat)
  | SendFounderResult (guid : Nat) (name : List Nat)
  | ArenaTeamCreate (captain : Nat) (type : Nat) (name : List Nat)
  | SetEmblem (backgroud icon iconcolor border bordercolor : Nat)
  | AddArenaTeam
  | ArenaTeamAddMember (guid : Nat)
  | DeletePetition (counter : Nat)
  | DeletePetitionSigns (counter : Nat)
deriving DecidableEq, Repr

/-- The member loop of the guild branch: `signs` iterations over the result
rows; an empty guid skips the iteration without moving to the next row. -/
def turnInGuildMembers (w : TurnInWorld) (name : List Nat) :
    Nat → List Nat → List TurnInEffect
  | 0, _ => []
  | _ + 1, [] => []
  | n + 1, row :: rows =>
    let signGuid := w.playerGuidOf row
    if signGuid = 0 then
      turnInGuildMembers w name n (row :: rows)
    else
      [TurnInEffect.GuildAddMember signGuid, TurnInEffect.LogGuildEventJoin signGuid]
        ++ (if w.GetPlayer signGuid = true then [TurnInEffect.SendFounderResult signGuid name]
            else [])
        ++ turnInGuildMembers w name n rows

/-- The member loop of the arena-team branch. -/
def turnInArenaMembers (w : TurnInWorld) : Nat → List Nat → List TurnInEffect
  | 0, _ => []
  | _ + 1, [] => []
  | n + 1, row :: rows =>
    let memberGUID := w.playerGuidOf row
    if memberGUID = 0 then
      turnInArenaMembers w n (row :: rows)
    else
      TurnInEffect.ArenaTeamAddMember memberGUID :: turnInArenaMembers w n rows

/-- The five emblem fields read by the arena-team branch:
`recv_data >> backgroud >> icon >> iconcolor >> border >> bordercolor`. -/
def readEmblem (recv_data : Cursor) :
    Except CodecError (Nat × Nat × Nat × Nat × Nat) × Cursor :=
  readThen (ReadU32 recv_data) fun backgroud c =>
  readThen (ReadU32 c) fun icon c =>
  readThen (ReadU32 c) fun iconcolor c =>
  readThen (ReadU32 c) fun border c =>
  readThen (ReadU32 c) fun bordercolor c =>
  (Except.ok (backgroud, icon, iconcolor, border, bordercolor), c)

/-- The database clean-up and the final packet of a successful turn-in. -/
def turnInFinish (counter : Nat) : List TurnInEffect :=
  [TurnInEffect.DeletePetition counter, TurnInEffect.DeletePetitionSigns counter,
    TurnInEffect.SendTurnInResult PetitionTurn.PETITION_TURN_OK]

/-- `WorldSession::HandleTurnInPetitionOpcode`. The result is the outcome of
the packet reads (an error is the exception that leaves the handler), the
cursor, and the effects performed up to that point. -/
def HandleTurnInPetitionOpcode (w : TurnInWorld) (recv_data : Cursor) :
    Except CodecError Unit × Cursor × List TurnInEffect :=
  match ReadIdentifier recv_data with
  | (Except.error e, c) => (Except.error e, c, [])
  | (Except.ok petitionGuid, c) =>
    let counter := w.GetCounter petitionGuid
    match w.petition counter with
    | none => (Except.ok (), c, [TurnInEffect.LogError])
    | some row =>
      let ownerGuid := w.playerGuidOf row.ownerguid
      let name := row.name
      let type := row.type
      if type = 9 ∧ w.playerGuildId ≠ 0 then
        (Except.ok (), c,
          [TurnInEffect.SendTurnInResult PetitionTurn.PETITION_TURN_ALREADY_IN_GUILD])
      else if type ≠ 9 ∧ w.IsArenaTypeValid type = false then
        (Except.ok (), c, [])
      else if type ≠ 9 ∧ w.MAX_ARENA_SLOT ≤ w.GetSlotByType type % 256 then
        (Except.ok (), c, [])
      else if type ≠ 9 ∧ w.playerArenaTeamId (w.GetSlotByType type % 256) ≠ 0 then
        (Except.ok (), c, [TurnInEffect.SendArenaTeamCommandResult name
          ArenaTeamCommandError.ERR_ALREADY_IN_ARENA_TEAM])
      else if w.playerGuid ≠ ownerGuid then
        (Except.ok (), c, [])
      else
        let result := w.petition_sign counter
        let signs := result.length % 256
        let count := if type = 9 then w.CONFIG_UINT32_MIN_PETITION_SIGNS
          else (type + (2 ^ 32 - 1)) % 2 ^ 32
        if signs < count then
          (Except.ok (), c,
            [TurnInEffect.SendTurnInResult PetitionTurn.PETITION_TURN_NEED_MORE_SIGNATURES])
        else if type = 9 ∧ w.GetGuildByName name = true then
          (Except.ok (), c, [TurnInEffect.SendGuildCommandResult GuildCommand.GUILD_CREATE_S name
            GuildCommandError.ERR_GUILD_NAME_EXISTS_S])
        else if type ≠ 9 ∧ w.GetArenaTeamByName name = true then
          (Except.ok (), c, [TurnInEffect.SendArenaTeamCommandResult name
            ArenaTeamCommandError.ERR_ARENA_TEAM_NAME_EXISTS_S])
        else if w.GetItemByGuid petitionGuid = false then
          (Except.ok (), c, [])
        else if type = 9 then
          if w.guildCreate name = false then
            (Except.ok (), c, [TurnInEffect.DestroyItem petitionGuid])
          else
            (Except.ok (), c,
              [TurnInEffect.DestroyItem petitionGuid,
                TurnInEffect.GuildCreate w.playerGuid name,
                TurnInEffect.AddGuild,
                TurnInEffect.SendGuildCommandResult GuildCommand.GUILD_CREATE_S name
                  GuildCommandError.ERR_GUILD_COMMAND_SUCCESS]
              ++ turnInGuildMembers w name signs result
              ++ turnInFinish counter)
        else
          if w.arenaTeamCreate w.playerGuid type name = false then
            (Except.ok (), c, [TurnInEffect.DestroyItem petitionGuid, TurnInEffect.LogError])
          else
            match readEmblem c with
            | (Except.error e, c1) =>
              (Except.error e, c1,
                [TurnInEffect.DestroyItem petitionGuid,
                  TurnInEffect.ArenaTeamCreate w.playerGuid type name])
            | (Except.ok (backgroud, icon, iconcolor, border, bordercolor), c1) =>
              (Except.ok (), c1,
                [TurnInEffect.DestroyItem petitionGuid,
                  TurnInEffect.ArenaTeamCreate w.playerGuid type name,
                  TurnInEffect.SetEmblem backgroud icon iconcolor border bordercolor,
                  TurnInEffect.AddArenaTeam]
                ++ turnInArenaMembers w signs result
                ++ turnInFinish counter)

/-! ## ChannelHandler.cpp: the channel list opcode -/

/-- Effects of `HandleChannelListOpcode`. -/
inductive ChannelEffect where
  | List (channelname : List Nat)
deriving DecidableEq, Repr

/-- `WorldSession::HandleChannelListOpcode`: `recvPacket >> channelname`, then
the member list of the channel is sent when the channel manager of the
player's team (`channelMgr`) and the channel (`GetChannel`) exist. -/
def HandleChannelListOpcode (channelMgr : Bool) (GetChannel : List Nat → Bool)
    (recvPacket : Cursor) : Except CodecError Unit × Cursor × List ChannelEffect :=
  match ReadString recvPacket with
  | (Except.error e, c) => (Except.error e, c, [])
  | (Except.ok channelname, c) =>
    if channelMgr = true ∧ GetChannel channelname = true then
      (Except.ok (), c, [ChannelEffect.List channelname])
    else
      (Except.ok (), c, [])

/-- A world in which the player with guid 7 owns the 2v2 arena-team petition
with counter 100, which has one signature (of player 8), the charter is in
the bags and no team of that name exists. -/
def turnInArenaWorld : TurnInWorld :=
  { GetCounter := fun g => g % 2 ^ 32
    playerGuidOf := fun low => low
    petition := fun counter =>
      if counter = 100 then some { ownerguid := 7, name := [65, 66], type := 2 } else none
    petition_sign := fun counter => if counter = 100 then [8] else []
    playerGuid := 7
    playerGuildId := 0
    playerArenaTeamId := fun _ => 0
    IsArenaTypeValid := fun t => t == 2 || t == 3 || t == 5
    GetSlotByType := fun t => if t = 2 then 0 else if t = 3 then 1 else if t = 5 then 2 else 255
    MAX_ARENA_SLOT := 3
    CONFIG_UINT32_MIN_PETITION_SIGNS := 9
    GetGuildByName := fun _ => false
    GetArenaTeamByName := fun _ => false
    GetItemByGuid := fun g => g == 100
    GetPlayer := fun _ => true
    guildCreate := fun _ => true
    arenaTeamCreate := fun _ _ _ => true }

/-! ## Wire frame codec -/

/-- Modelled from the spec: the Message of section 3 (the packet class
`WorldPacket` is missing from the sources): an opcode and a body. -/
structure Message where
  opcode : Nat
  body : List Nat
deriving DecidableEq, Repr

/-- Modelled from the spec: the constants of the frame header of sections 3,
4.1 and 6, which the spec leaves open: the width of the length field, the
width of the opcode field and the configured maximum message size. -/
structure FrameFormat where
  lengthWidth : Nat
  opcodeWidth : Nat
  maxMessageSize : Nat
deriving DecidableEq, Repr

/-- Size of the fixed frame header. -/
def FrameFormat.headerSize (f : FrameFormat) : Nat :=
  f.lengthWidth + f.opcodeWidth

/-- Outcome of one `TryExtractFrame` call. -/
inductive FrameResult where
  | NeedMoreData
  | OversizedMessage
  | Frame (message : Message) (rest : List Nat)
deriving DecidableEq, Repr

/-- Modelled from the spec: `EncodeFrame` of section 4.1 (the socket code is
missing from the sources): the length header, computed from the opcode width
and the body length, then the opcode field, then the body. -/
def EncodeFrame (f : FrameFormat) (m : Message) : List Nat :=
  encodeLE f.lengthWidth (f.opcodeWidth + m.body.length)
    ++ (encodeLE f.opcodeWidth m.opcode ++ m.body)

/-- Modelled from the spec: `TryExtractFrame` of section 4.1 (the socket code
is missing from the sources). With fewer bytes than the fixed header:
`NeedMoreData`; a declared length above the maximum: `OversizedMessage`; a
header without all payload bytes: `NeedMoreData`; otherwise the header and
the payload are consumed and the unconsumed bytes stay buffered. -/
def TryExtractFrame (f : FrameFormat) (buffer : List Nat) : FrameResult :=
  if buffer.length < f.headerSize then
    FrameResult.NeedMoreData
  else
    let length := decodeLE (buffer.take f.lengthWidth)
    if f.maxMessageSize < length then
      FrameResult.OversizedMessage
    else
      let payload := length - f.opcodeWidth
      if buffer.length < f.headerSize + payload then
        FrameResult.NeedMoreData
      else
        FrameResult.Frame
          { opcode := decodeLE ((buffer.drop f.lengthWidth).take f.opcodeWidth),
            body := (buffer.drop f.headerSize).take payload }
          (buffer.drop (f.headerSize + payload))

/-- Modelled from the spec: the inbound side of a connection as the transport
loop of sections 4.1 and 5 keeps it: the bytes received and not yet consumed,
and whether the connection was closed after an `OversizedMessage`. -/
structure FrameDecoder where
  buffer : List Nat
  closed : Bool
deriving DecidableEq, Repr

/-- A decoder of a fresh connection. -/
def FrameDecoder.init : FrameDecoder :=
  { buffer := [], closed := false }

/-- Repeated `TryExtractFrame` calls on a buffer, at most `fuel` of them:
every decoded Message is collected, `NeedMoreData` stops with the rest
buffered, `OversizedMessage` closes the connection and discards the buffer. -/
def extractFrames (f : FrameFormat) : Nat → List Nat → List Message × FrameDecoder
  | 0, buffer => ([], { buffer := buffer, closed := false })
  | fuel + 1, buffer =>
    match TryExtractFrame f buffer with
    | FrameResult.NeedMoreData => ([], { buffer := buffer, closed := false })
    | FrameResult.OversizedMessage => ([], { buffer := [], closed := true })
    | FrameResult.Frame m rest =>
      ((m :: (extractFrames f fuel rest).1), (extractFrames f fuel rest).2)

/-- Delivery of one chunk of bytes: the chunk is appended to the buffered
bytes and frames are extracted until more data is needed. One call per
buffered byte is enough, as every frame has a header. -/
def FrameDecoder.feed (f : FrameFormat) (d : FrameDecoder) (chunk : List Nat) :
    List Message × FrameDecoder :=
  if d.closed = true then
    ([], d)
  else
    extractFrames f (d.buffer ++ chunk).length (d.buffer ++ chunk)

/-- Delivery of consecutive chunks one after another; the Messages of all
deliveries in order. -/
def FrameDecoder.feedAll (f : FrameFormat) :
    FrameDecoder → List (List Nat) → List Message × FrameDecoder
  | d, [] => ([], d)
  | d, chunk :: chunks =>
    ((d.feed f chunk).1 ++ (FrameDecoder.feedAll f (d.feed f chunk).2 chunks).1,
      (FrameDecoder.feedAll f (d.feed f chunk).2 chunks).2)

/-! ## Opcode dispatch and session state -/

/-- Modelled from the spec: the states of a Connection Session of section 4.4
(the session and socket classes are missing from the sources). -/
inductive SessionState where
  | Unauthenticated
  | Authenticated
  | Closed
deriving DecidableEq, Repr

/-- Modelled from the spec: the Connection Session of section 3: its state
(the `authenticated` flag is the state `Authenticated`) and the actor
identity, absent until authentication completes. -/
structure Session where
  state : SessionState
  actorIdentity : Option Nat
deriving DecidableEq, Repr

/-- Modelled from the spec: an error raised inside a handler (section 4.3),
flagged as security-relevant when the handler requests disconnection. -/
structure HandlerError where
  securityRelevant : Bool
deriving DecidableEq, Repr

/-- Modelled from the spec: the Dispatch Entry of section 3: one opcode, one
handler capability (a function of the session and a read cursor that
produces zero or more outbound Messages or raises), and whether the handler
requires an authenticated session. -/
structure DispatchEntry where
  opcode : Nat
  handler : Session → Cursor → Except HandlerError (List Message)
  requiresAuthentication : Bool

/-- What `Dispatch` signals to its caller (sections 4.3 and 7). -/
inductive DispatchSignal where
  | Handled
  | UnknownOpcode
  | Unauthorized
  | HandlerFault
deriving DecidableEq, Repr

/-- Result of `Dispatch`: the signal, the reply Messages and the session
after the call. -/
structure DispatchResult where
  signal : DispatchSignal
  replies : List Message
  session : Session
deriving DecidableEq, Repr

/-- Modelled from the spec: `Dispatch` of section 4.3 (the opcode table is
missing from the sources). No handler: `UnknownOpcode`, the connection stays
open. A handler that requires authentication on a session that is not
authenticated: `Unauthorized`, the message is dropped. Otherwise the handler
runs on a read cursor over the body; an error it raises becomes
`HandlerFault`, and the session is closed only when the fault is
security-relevant. -/
def Dispatch (table : List DispatchEntry) (session : Session) (message : Message) :
    DispatchResult :=
  match table.find? (fun e => e.opcode == message.opcode) with
  | none => { signal := DispatchSignal.UnknownOpcode, replies := [], session := session }
  | some e =>
    if e.requiresAuthentication = true ∧ session.state ≠ SessionState.Authenticated then
      { signal := DispatchSignal.Unauthorized, replies := [], session := session }
    else
      match e.handler session (Cursor.forRead message.body) with
      | Except.ok replies =>
        { signal := DispatchSignal.Handled, replies := replies, session := session }
      | Except.error err =>
        { signal := DispatchSignal.HandlerFault, replies := [],
          session := if err.securityRelevant = true then
            { session with state := SessionState.Closed } else session }

/-- A dispatch table with one entry, used as an example: opcode 3 echoes the
body and requires authentication. -/
def exampleTable : List DispatchEntry :=
  [{ opcode := 3,
     handler := fun _ c => Except.ok [{ opcode := 3, body := c.buffer }],
     requiresAuthentication := true }]

/-! ## GuildHandler.cpp: the message of the day -/

/-- Rights of a guild rank that the handlers test (`GR_RIGHT_*`). -/
inductive GuildRankRight where
  | GR_RIGHT_SETMOTD
  | GR_RIGHT_PROMOTE
  | GR_RIGHT_DEMOTE
  | GR_RIGHT_REMOVE
deriving DecidableEq, Repr

/-- Guild events broadcast by the handlers (`GE_*`). -/
inductive GuildEvents where
  | GE_PROMOTION
  | GE_DEMOTION
  | GE_MOTD
  | GE_REMOVED
  | GE_LEADER_CHANGED
deriving DecidableEq, Repr

/-- A member of a guild (`MemberSlot`). -/
structure MemberSlot where
  guid : Nat
  Name : List Nat
  RankId : Nat
deriving DecidableEq, Repr

/-- The state of a guild that the handlers read and change: the leader, the
message of the day, the members and the rights mask of every rank (rank 0 is
the guild master). -/
structure Guild where
  m_LeaderGuid : Nat
  MOTD : List Nat
  members : List MemberSlot
  m_Ranks : List Nat
deriving DecidableEq, Repr

/-- The player of the session as the guild handlers see it. -/
structure GuildPlayer where
  -- `GetPlayer()->GetObjectGuid()`
  guid : Nat
  -- `GetPlayer()->GetName()`
  name : List Nat
  -- `GetPlayer()->GetRank()`
  rank : Nat
  -- `sGuildMgr.GetGuildById(GetPlayer()->GetGuildId())`
  guild : Option Guild
deriving DecidableEq, Repr

/-- Kinds of records in the guild log (`GUILD_EVENT_LOG_*`). -/
inductive GuildEventLogTypes where
  | GUILD_EVENT_LOG_PROMOTE_PLAYER
  | GUILD_EVENT_LOG_DEMOTE_PLAYER
  | GUILD_EVENT_LOG_UNINVITE_PLAYER
deriving DecidableEq, Repr

/-- Packets sent and events broadcast by the guild handlers. -/
inductive GuildEffect where
  | SendGuildCommandResult (typecmd : GuildCommand) (str : List Nat)
      (cmdresult : GuildCommandError)
  | BroadcastEvent (event : GuildEvents) (strs : List (List Nat))
  | LogGuildEvent (event : GuildEventLogTypes) (playerGuid1 playerGuid2 newRank : Nat)
  | Disband
deriving DecidableEq, Repr

/-- `WorldSession::HandleGuildMOTDOpcode`. `HasRankRight` stands for
`Guild::HasRankRight`; `recvPacket.empty()` is the test that the body holds no
byte; `Guild::SetMOTD` is taken to store its argument. The result is the
outcome of the packet read, the cursor, the guild after the call and the
packets and events sent. -/
def HandleGuildMOTDOpcode (HasRankRight : Guild → Nat → GuildRankRight → Bool)
    (player : GuildPlayer) (recvPacket : Cursor) :
    Except CodecError Unit × Cursor × Option Guild × List GuildEffect :=
  let read : Except CodecError (List Nat) × Cursor :=
    if recvPacket.buffer ≠ [] then ReadString recvPacket else (Except.ok [], recvPacket)
  match read with
  | (Except.error e, c) => (Except.error e, c, player.guild, [])
  | (Except.ok MOTD, c) =>
    match player.guild with
    | none =>
      (Except.ok (), c, none,
        [GuildEffect.SendGuildCommandResult GuildCommand.GUILD_CREATE_S []
          GuildCommandError.ERR_GUILD_PLAYER_NOT_IN_GUILD])
    | some guild =>
      if HasRankRight guild player.rank GuildRankRight.GR_RIGHT_SETMOTD = false then
        (Except.ok (), c, some guild,
          [GuildEffect.SendGuildCommandResult GuildCommand.GUILD_INVITE_S []
            GuildCommandError.ERR_GUILD_PERMISSIONS])
      else
        (Except.ok (), c, some { guild with MOTD := MOTD },
          [GuildEffect.BroadcastEvent GuildEvents.GE_MOTD [MOTD]])

/-! ## GuildHandler.cpp: promotion, demotion, removal, change of leader -/

/-- What the guild handlers use from outside the file: the rank-right test
and the rank data of `Guild`, the name check of `ObjectMgr` (which gives the
normalized name, or nothing for a malformed one) and the two default ranks. -/
structure GuildRules where
  HasRankRight : Guild → Nat → GuildRankRight → Bool
  normalizePlayerName : List Nat → Option (List Nat)
  GetLowestRank : Guild → Nat
  GetRankName : Guild → Nat → List Nat
  GR_GUILDMASTER : Nat
  GR_OFFICER : Nat

/-- `MemberSlot::ChangeRank`: the rank of the slot becomes `newRank`. -/
def MemberSlot.ChangeRank (slot : MemberSlot) (newRank : Nat) : MemberSlot :=
  { slot with RankId := newRank }

/-- Modelled from the spec: `Guild::GetMemberSlot(name)` (Guild.cpp is missing
from the sources), taken to give the first member with that name. -/
def Guild.GetMemberSlotByName (guild : Guild) (name : List Nat) : Option MemberSlot :=
  guild.members.find? (fun m => m.Name == name)

/-- Modelled from the spec: `Guild::GetMemberSlot(guid)` (Guild.cpp is missing
from the sources), taken to give the member with that guid. -/
def Guild.GetMemberSlot (guild : Guild) (guid : Nat) : Option MemberSlot :=
  guild.members.find? (fun m => m.guid == guid)

/-- The member list after `ChangeRank` on the slot that a lookup with the test
`p` found: the first member that passes `p` gets the new rank. -/
def changeRankOfFirst (p : MemberSlot → Bool) (newRank : Nat) :
    List MemberSlot → List MemberSlot
  | [] => []
  | m :: ms =>
    if p m = true then m.ChangeRank newRank :: ms
    else m :: changeRankOfFirst p newRank ms

/-- Modelled from the spec: `Guild::SetLeader(guid)` (Guild.cpp is missing
from the sources), taken to make its argument, when it is a member, the
leader with rank `GR_GUILDMASTER`. -/
def Guild.SetLeader (guild : Guild) (GR_GUILDMASTER : Nat) (guid : Nat) : Guild :=
  match guild.GetMemberSlot guid with
  | none => guild
  | some _ =>
    { guild with
      m_LeaderGuid := guid,
      members := changeRankOfFirst (fun m => m.guid == guid) GR_GUILDMASTER guild.members }

/-- `WorldSession::HandleGuildLeaderOpcode`. -/
def HandleGuildLeaderOpcode (R : GuildRules) (player : GuildPlayer) (recvPacket : Cursor) :
    Except CodecError Unit × Cursor × Option Guild × List GuildEffect :=
  match ReadString recvPacket with
  | (Except.error e, c) => (Except.error e, c, player.guild, [])
  | (Except.ok name0, c) =>
    match R.normalizePlayerName name0 with
    | none => (Except.ok (), c, player.guild, [])
    | some name =>
      match player.guild with
      | none =>
        (Except.ok (), c, none,
          [GuildEffect.SendGuildCommandResult GuildCommand.GUILD_CREATE_S []
            GuildCommandError.ERR_GUILD_PLAYER_NOT_IN_GUILD])
      | some guild =>
        if player.guid ≠ guild.m_LeaderGuid then
          (Except.ok (), c, some guild,
            [GuildEffect.SendGuildCommandResult GuildCommand.GUILD_INVITE_S []
              GuildCommandError.ERR_GUILD_PERMISSIONS])
        else
          match guild.GetMemberSlot player.guid with
          | none =>
            (Except.ok (), c, some guild,
              [GuildEffect.SendGuildCommandResult GuildCommand.GUILD_INVITE_S []
                GuildCommandError.ERR_GUILD_PERMISSIONS])
          | some _ =>
            match guild.GetMemberSlotByName name with
            | none =>
              (Except.ok (), c, some guild,
                [GuildEffect.SendGuildCommandResult GuildCommand.GUILD_INVITE_S name
                  GuildCommandError.ERR_GUILD_PLAYER_NOT_IN_GUILD_S])
            | some slot =>
              let guild1 := guild.SetLeader R.GR_GUILDMASTER slot.guid
              let guild2 : Guild :=
                { guild1 with
                  members := changeRankOfFirst (fun m => m.guid == player.guid) R.GR_OFFICER
                    guild1.members }
              (Except.ok (), c, some guild2,
                [GuildEffect.BroadcastEvent GuildEvents.GE_LEADER_CHANGED [player.name, name]])

/-! ## ChatHandler.cpp: checks on a chat message -/

/-- The settings, constants and helpers that
`processChatmessageFurtherAfterSecurityChecks` uses from outside the file. -/
structure ChatWorld where
  CONFIG_BOOL_CHAT_FAKE_MESSAGE_PREVENTING : Bool
  CONFIG_UINT32_CHAT_STRICT_LINK_CHECKING_SEVERITY : Nat
  CONFIG_UINT32_CHAT_STRICT_LINK_CHECKING_KICK : Nat
  LANG_ADDON : Nat
  SEC_MODERATOR : Nat
  stripLineInvisibleChars : List Nat → List Nat
  isValidChatMessage : List Nat → Bool

/-- Effects of the chat checks. -/
inductive ChatEffect where
  | outError (msg : List Nat)
  | KickPlayer
deriving DecidableEq, Repr

/-- `WorldSession::processChatmessageFurtherAfterSecurityChecks`; `security`
is `GetSecurity()`. The result is the returned flag, the message text after
the call (`msg` is passed by reference) and the effects. -/
def processChatmessageFurtherAfterSecurityChecks (w : ChatWorld) (security : Nat)
    (msg : List Nat) (lang : Nat) : Bool × List Nat × List ChatEffect :=
  if lang ≠ w.LANG_ADDON then
    let msg1 :=
      if w.CONFIG_BOOL_CHAT_FAKE_MESSAGE_PREVENTING = true then w.stripLineInvisibleChars msg
      else msg
    if w.CONFIG_UINT32_CHAT_STRICT_LINK_CHECKING_SEVERITY ≠ 0 ∧ security < w.SEC_MODERATOR
        ∧ w.isValidChatMessage msg1 = false then
      (false, msg1,
        ChatEffect.outError msg1 ::
          (if w.CONFIG_UINT32_CHAT_STRICT_LINK_CHECKING_KICK ≠ 0 then [ChatEffect.KickPlayer]
           else []))
    else
      (true, msg1, [])
  else
    (true, msg, [])

/-- The text on which the link check of
`processChatmessageFurtherAfterSecurityChecks` runs: the message after the
invisible characters were stripped, when that is configured. -/
def checkedChatMessage (w : ChatWorld) (msg : List Nat) : List Nat :=
  if w.CONFIG_BOOL_CHAT_FAKE_MESSAGE_PREVENTING = true then w.stripLineInvisibleChars msg
  else msg

/-! ## Config.cpp -/

/-- The test `std::isspace` of the classic locale, used by `boost::trim`:
space, tab, line feed, vertical tab, form feed, carriage return. -/
def isspace (b : Nat) : Bool :=
  b == 32 || (9 ≤ b && b ≤ 13)

/-- The function `tolower` of the classic locale: `A`..`Z` to `a`..`z`. -/
def tolower (b : Nat) : Nat :=
  if 65 ≤ b ∧ b ≤ 90 then b + 32 else b

/-- `boost::algorithm::to_lower_copy`. -/
def to_lower_copy (s : List Nat) : List Nat :=
  s.map tolower

/-- `boost::algorithm::trim_left`. -/
def trim_left (s : List Nat) : List Nat :=
  s.dropWhile isspace

/-- `boost::algorithm::trim_copy_if`: the leading and trailing characters
that satisfy the predicate are removed. -/
def trim_copy_if (s : List Nat) (p : Nat → Bool) : List Nat :=
  (s.rdropWhile p).dropWhile p

/-- `boost::algorithm::trim_copy`. -/
def trim_copy (s : List Nat) : List Nat :=
  trim_copy_if s isspace

/-- `std::string::find(ch)`: the index of the first occurrence, `none` for
`npos`. -/
def find (ch : Nat) : List Nat → Option Nat
  | [] => none
  | b :: bs => if b = ch then some 0 else (find ch bs).map (fun i => i + 1)

/-- The lines that the `std::getline` loop of `Config::Reload` sees: the
content split at every line feed (what follows the last line feed, possibly
nothing, is the last line). -/
def getlines : List Nat → List (List Nat)
  | [] => [[]]
  | b :: bs =>
    if b = 10 then [] :: getlines bs
    else
      match getlines bs with
      | [] => [[b]]
      | line :: lines => (b :: line) :: lines

/-- The entries of the configuration (`std::unordered_map<std::string,
std::string>`) as a list of keys with their values, no key twice. -/
abbrev Entries := List (List Nat × List Nat)

/-- `m_entries.find(key)`: the value of the key, if any. -/
def Entries.find : Entries → List Nat → Option (List Nat)
  | [], _ => none
  | (k, v) :: rest, key => if k = key then some v else Entries.find rest key

/-- `newEntries[key] = value`: the value of an existing key is replaced, a new
key is added. -/
def Entries.set : Entries → List Nat → List Nat → Entries
  | [], key, value => [(key, value)]
  | (k, v) :: rest, key, value =>
    if k = key then (k, value) :: rest else (k, v) :: Entries.set rest key value

/-- What the body of the loop of `Config::Reload` does with one line. -/
inductive LineResult where
  | Ignored
  | Malformed
  | Entry (entry : List Nat) (value : List Nat)
deriving DecidableEq, Repr

/-- The body of the loop of `Config::Reload` on one line: empty lines (after
`trim_left`) and lines that start with `#` or `[` are skipped, a line
without `=` makes `Reload` fail, any other line gives a key and a value. -/
def parseLine (line0 : List Nat) : LineResult :=
  let line := trim_left line0
  if line.length = 0 then LineResult.Ignored
  else if line.head? = some 35 ∨ line.head? = some 91 then LineResult.Ignored
  else
    match find 61 line with
    | none => LineResult.Malformed
    | some equals =>
      LineResult.Entry (trim_copy (to_lower_copy (line.take equals)))
        (trim_copy_if (trim_copy (line.drop (equals + 1))) (fun b => b == 34))

/-- The loop of `Config::Reload` over the lines of the file, filling
`newEntries`; `none` is the `return false` at a line without `=`. -/
def reloadLines : List (List Nat) → Entries → Option Entries
  | [], newEntries => some newEntries
  | line :: lines, newEntries =>
    match parseLine line with
    | LineResult.Ignored => reloadLines lines newEntries
    | LineResult.Malformed => none
    | LineResult.Entry entry value => reloadLines lines (Entries.set newEntries entry value)

/-- The configuration object: the file name and the entries. -/
structure Config where
  m_filename : List Nat
  m_entries : Entries
deriving DecidableEq, Repr

/-- `Config::Reload`. `files` gives the content of a file that can be opened.
The result is the returned flag and the configuration after the call. -/
def Config.Reload (files : List Nat → Option (List Nat)) (cfg : Config) : Bool × Config :=
  match files cfg.m_filename with
  | none => (false, cfg)
  | some content =>
    match reloadLines (getlines content) [] with
    | none => (false, cfg)
    | some newEntries => (true, { cfg with m_entries := newEntries })

/-- `Config::SetSource`. -/
def Config.SetSource (files : List Nat → Option (List Nat)) (cfg : Config)
    (file : List Nat) : Bool × Config :=
  Config.Reload files { cfg with m_filename := file }

/-- `Config::IsSet`. -/
def Config.IsSet (cfg : Config) (name : List Nat) : Bool :=
  (Entries.find cfg.m_entries (to_lower_copy name)).isSome

/-- `Config::GetStringDefault`. -/
def Config.GetStringDefault (cfg : Config) (name : List Nat) (d : List Nat) : List Nat :=
  match Entries.find cfg.m_entries (to_lower_copy name) with
  | none => d
  | some value => value

/-- The bytes of a text of ASCII characters. -/
def bytes (s : String) : List Nat :=
  s.toList.map Char.toNat

/-- `Config::GetBoolDefault`. -/
def Config.GetBoolDefault (cfg : Config) (name : List Nat) (d : Bool) : Bool :=
  let value := cfg.GetStringDefault name (if d = true then bytes "true" else bytes "false")
  let valueLower := value.map tolower
  valueLower == bytes "true" || valueLower == bytes "1" || valueLower == bytes "yes"

/-- The first character of a line that is not whitespace, if there is one. -/
def firstNonSpace (line : List Nat) : Option Nat :=
  line.find? (fun b => !isspace b)

/-- The lines that the description of `Config::Reload` calls ignored: a line
that is empty or holds only whitespace, or whose first character that is not
whitespace is `#` or `[`. -/
def lineIsIgnorable (line : List Nat) : Bool :=
  line.all isspace || firstNonSpace line == some 35 || firstNonSpace line == some 91

/-! ## Example values -/

/-- A guild with two ranks and two members, used as an example. -/
def exampleGuild : Guild :=
  { m_LeaderGuid := 1,
    MOTD := bytes "hello",
    members := [{ guid := 1, Name := bytes "Anna", RankId := 0 },
      { guid := 2, Name := bytes "Bert", RankId := 1 }],
    m_Ranks := [0xFFFFFFFF, 0x43] }

/-- The guild master of the example guild. -/
def examplePlayer : GuildPlayer :=
  { guid := 1, name := bytes "Anna", rank := 0, guild := some exampleGuild }

/-- A rank-right test for the examples: only the guild master has rights. -/
def exampleHasRankRight : Guild → Nat → GuildRankRight → Bool :=
  fun _ rank _ => rank == 0

/-- Chat settings for the examples: strict link checking with kick, every
message is taken as invalid. -/
def exampleChatWorld : ChatWorld :=
  { CONFIG_BOOL_CHAT_FAKE_MESSAGE_PREVENTING := false,
    CONFIG_UINT32_CHAT_STRICT_LINK_CHECKING_SEVERITY := 1,
    CONFIG_UINT32_CHAT_STRICT_LINK_CHECKING_KICK := 1,
    LANG_ADDON := 0xFFFFFFFF,
    SEC_MODERATOR := 1,
    stripLineInvisibleChars := fun m => m,
    isValidChatMessage := fun _ => false }

/-- A configuration file for the examples. -/
def exampleConfigFile : List Nat :=
  bytes "# comment\n[section]\nKeY = \"v 1\"\nb=2=3\n"

/-- A file system that holds the example file under every name. -/
def exampleFiles : List Nat → Option (List Nat) :=
  fun _ => some exampleConfigFile

/-- A configuration file whose second line has no `=`. -/
def exampleBadConfigFile : List Nat :=
  bytes "a=1\nbad line\nb=2\n"

/-- A file system that holds the file with the bad line under every name. -/
def exampleBadFiles : List Nat → Option (List Nat) :=
  fun _ => some exampleBadConfigFile

/-- A configuration loaded earlier, with the one entry `x = 1`. -/
def exampleLoadedConfig : Config :=
  { m_filename := bytes "mangosd.conf", m_entries := [(bytes "x", bytes "1")] }

/-- Rules for the examples: the guild master has every right, officers
(rank 1) may promote, demote and remove; names are taken as they are; the
lowest rank is the last of the rank list (as a 32-bit value). -/
def exampleRules : GuildRules :=
  { HasRankRight := fun _ rank right =>
      rank == 0 || (rank == 1 && right != GuildRankRight.GR_RIGHT_SETMOTD),
    normalizePlayerName := fun n => if n = [] then none else some n,
    GetLowestRank := fun g => (g.m_Ranks.length + (2 ^ 32 - 1)) % 2 ^ 32,
    GetRankName := fun _ _ => [],
    GR_GUILDMASTER := 0,
    GR_OFFICER := 1 }

/-- A guild with five ranks: Anna leads it, Bert is an officer, Carl has rank
3 and Dora the lowest rank 4. -/
def exampleBigGuild : Guild :=
  { m_LeaderGuid := 1,
    MOTD := [],
    members := [{ guid := 1, Name := bytes "Anna", RankId := 0 },
      { guid := 2, Name := bytes "Bert", RankId := 1 },
      { guid := 3, Name := bytes "Carl", RankId := 3 },
      { guid := 4, Name := bytes "Dora", RankId := 4 }],
    m_Ranks := [0xFFFFFFFF, 0xFFFFFFFF, 0x43, 0x43, 0x43] }

/-- Anna, the leader of the five-rank example guild. -/
def exampleLeader : GuildPlayer :=
  { guid := 1, name := bytes "Anna", rank := 0, guild := some exampleBigGuild }

/-- The body of a packet that holds one name. -/
def namePacket (name : String) : Cursor :=
  Cursor.forRead (bytes name ++ [0])

theorem encodeLE_length (w n : Nat) : (encodeLE w n).length = w := by
  induction w generalizing n with
  | zero => rfl
  | succ w ih => simp [encodeLE, ih]

theorem decodeLE_encodeLE (w n : Nat) : decodeLE (encodeLE w n) = n % 256 ^ w := by
  induction w generalizing n with
  | zero => simp [encodeLE, decodeLE, Nat.mod_one]
  | succ w ih =>
    simp only [encodeLE, decodeLE, ih]
    rw [pow_succ, Nat.mul_comm (256 ^ w) 256, Nat.mod_mul]

theorem takeWhile_nonzero_append_zero (s rest : List Nat) (hs : ∀ b ∈ s, b ≠ 0) :
    (s ++ 0 :: rest).takeWhile (fun b => b != 0) = s := by
  induction s with
  | nil => simp
  | cons a s ih =>
    have ha : a ≠ 0 := hs a (List.mem_cons_self a s)
    have hs2 : ∀ b ∈ s, b ≠ 0 := fun b hb => hs b (List.mem_cons_of_mem a hb)
    have hne : (a != 0) = true := by simp [ha]
    rw [List.cons_append, List.takeWhile_cons, hne]
    simp [ih hs2]

/-! ## Verified properties -/

/-- C1: a body written the way `HandlePetitionRenameOpcode` writes its reply
(the identifier on eight bytes, then the bytes of the string and one zero
byte), read back the way the handler parses its request, yields the
identifier and the string and leaves the read position at the end of the
body. -/
theorem C1_rename_layout_round_trip (g : Nat) (s : List Nat)
    (hg : g < 2 ^ 64) (hs : ∀ b ∈ s, b ≠ 0) :
    HandlePetitionRenameOpcode_parse
        (Cursor.forRead (HandlePetitionRenameOpcode_reply g s)) =
      (Except.ok (g, s),
        { buffer := HandlePetitionRenameOpcode_reply g s,
          position := (HandlePetitionRenameOpcode_reply g s).length }) := by
  have hlen : (encodeLE 8 g).length = 8 := encodeLE_length 8 g
  have hbody : HandlePetitionRenameOpcode_reply g s = encodeLE 8 g ++ (s ++ [0]) := by
    simp [HandlePetitionRenameOpcode_reply, WriteString, WriteIdentifier, writeFixed,
      Cursor.forWrite]
  have hdec : decodeLE (encodeLE 8 g) = g := by
    rw [decodeLE_encodeLE]; exact Nat.mod_eq_of_lt hg
  have htake : (encodeLE 8 g ++ (s ++ [0])).take 8 = encodeLE 8 g := by
    rw [← hlen]; exact List.take_left' rfl
  have hdrop : (encodeLE 8 g ++ (s ++ [0])).drop 8 = s ++ [0] := by
    rw [← hlen]; exact List.drop_left' rfl
  have htw : (s ++ [0]).takeWhile (fun b => b != 0) = s :=
    takeWhile_nonzero_append_zero s [] hs
  rw [hbody]
  simp [HandlePetitionRenameOpcode_parse, ReadIdentifier, readFixed, ReadString,
    Cursor.forRead, Cursor.remaining, hlen, htake, hdrop, htw, hdec]
  omega

/-- Witness of C1 at the identifier `2 ^ 64 - 1` and the empty string. -/
theorem C1_rename_layout_round_trip_witness :
    HandlePetitionRenameOpcode_parse
        (Cursor.forRead (HandlePetitionRenameOpcode_reply (2 ^ 64 - 1) [])) =
      (Except.ok (2 ^ 64 - 1, []),
        { buffer := HandlePetitionRenameOpcode_reply (2 ^ 64 - 1) [],
          position := (HandlePetitionRenameOpcode_reply (2 ^ 64 - 1) []).length }) :=
  C1_rename_layout_round_trip (2 ^ 64 - 1) [] (by norm_num) (by simp)

theorem readFixed_truncated (w : Nat) (c : Cursor) (h : c.remaining < w) :
    readFixed w c = (Except.error CodecError.TruncatedMessage, c) := by
  simp [readFixed, h]

theorem Skip_truncated (n : Nat) (c : Cursor) (h : c.remaining < n) :
    Skip n c = (Except.error CodecError.TruncatedMessage, c) := by
  simp [Skip, h]

/-- C2: a fixed-width read (8/16/32/64-bit integer, identifier, skip of `n`
bytes) whose width exceeds the bytes remaining fails with `TruncatedMessage`
and returns the cursor as it was, for every body and every read position; so
the parse of `HandlePetitionBuyOpcode` fails in that way at its first read
when fewer than eight bytes remain. -/
theorem C2_fixed_width_read_truncated (c : Cursor) :
    (c.remaining < 1 → ReadU8 c = (Except.error CodecError.TruncatedMessage, c)) ∧
    (c.remaining < 2 → ReadU16 c = (Except.error CodecError.TruncatedMessage, c)) ∧
    (c.remaining < 4 → ReadU32 c = (Except.error CodecError.TruncatedMessage, c)) ∧
    (c.remaining < 8 → ReadU64 c = (Except.error CodecError.TruncatedMessage, c)) ∧
    (c.remaining < 8 → ReadIdentifier c = (Except.error CodecError.TruncatedMessage, c)) ∧
    (∀ n, c.remaining < n → Skip n c = (Except.error CodecError.TruncatedMessage, c)) ∧
    (c.remaining < 8 →
      HandlePetitionBuyOpcode_parse c = (Except.error CodecError.TruncatedMessage, c)) := by
  refine ⟨readFixed_truncated 1 c, readFixed_truncated 2 c, readFixed_truncated 4 c,
    readFixed_truncated 8 c, readFixed_truncated 8 c, fun n => Skip_truncated n c, ?_⟩
  intro h
  simp [HandlePetitionBuyOpcode_parse, ReadIdentifier, readFixed_truncated 8 c h, readThen]

/-- Witness of C2: a three-byte body read from position 1 has two bytes left;
reads of four and eight bytes and a skip of three bytes fail. -/
theorem C2_fixed_width_read_truncated_witness :
    ReadU32 { buffer := [1, 2, 3], position := 1 } =
        (Except.error CodecError.TruncatedMessage, { buffer := [1, 2, 3], position := 1 }) ∧
    ReadU64 { buffer := [1, 2, 3], position := 1 } =
        (Except.error CodecError.TruncatedMessage, { buffer := [1, 2, 3], position := 1 }) ∧
    Skip 3 { buffer := [1, 2, 3], position := 1 } =
        (Except.error CodecError.TruncatedMessage, { buffer := [1, 2, 3], position := 1 }) :=
  ⟨(C2_fixed_width_read_truncated { buffer := [1, 2, 3], position := 1 }).2.2.1 (by decide),
    (C2_fixed_width_read_truncated { buffer := [1, 2, 3], position := 1 }).2.2.2.1 (by decide),
    (C2_fixed_width_read_truncated { buffer := [1, 2, 3], position := 1 }).2.2.2.2.2.1 3
      (by decide)⟩

/-- C3: evaluation of `HandleTurnInPetitionOpcode` on a packet that holds
only the petition guid, for an arena-team petition turned in by its owner
with enough signatures: the read of the emblem fields fails with
`TruncatedMessage` after the charter item has been destroyed and the arena
team has been created. -/
theorem C3_turn_in_truncated_after_destroy :
    HandleTurnInPetitionOpcode turnInArenaWorld (Cursor.forRead (encodeLE 8 100)) =
      (Except.error CodecError.TruncatedMessage,
        { buffer := encodeLE 8 100, position := 8 },
        [TurnInEffect.DestroyItem 100, TurnInEffect.ArenaTeamCreate 7 2 [65, 66]]) := by
  rfl

theorem takeWhile_all_nonzero (l : List Nat) (h : ∀ b ∈ l, b ≠ 0) :
    l.takeWhile (fun b => b != 0) = l := by
  rw [List.takeWhile_eq_self_iff]
  intro b hb
  simp [h b hb]

theorem ReadString_unterminated (c : Cursor)
    (h : ∀ b ∈ c.buffer.drop c.position, b ≠ 0) :
    ReadString c = (Except.error CodecError.UnterminatedString, c) := by
  simp [ReadString, takeWhile_all_nonzero _ h]

/-- C4: when no zero byte occurs between the read position and the end of the
body, reading a string fails with `UnterminatedString`; the cursor is returned
as it was, so a position inside the body stays inside the body, and
`HandleChannelListOpcode` ends at that read without any effect. -/
theorem C4_read_string_unterminated (c : Cursor)
    (h : ∀ b ∈ c.buffer.drop c.position, b ≠ 0) :
    (ReadString c).1 = Except.error CodecError.UnterminatedString ∧
    (ReadString c).2.position = c.position ∧
    (c.position ≤ c.buffer.length → (ReadString c).2.position ≤ c.buffer.length) ∧
    (∀ channelMgr GetChannel, HandleChannelListOpcode channelMgr GetChannel c =
      (Except.error CodecError.UnterminatedString, c, [])) := by
  have hr := ReadString_unterminated c h
  refine ⟨by rw [hr], by rw [hr], fun hp => by rw [hr]; exact hp, ?_⟩
  intro channelMgr GetChannel
  simp [HandleChannelListOpcode, hr]

/-- Witness of C4: the body `"AB"` without terminator, read from its start. -/
theorem C4_read_string_unterminated_witness :
    (ReadString (Cursor.forRead [65, 66])).1 = Except.error CodecError.UnterminatedString ∧
    (ReadString (Cursor.forRead [65, 66])).2.position = 0 :=
  ⟨(C4_read_string_unterminated (Cursor.forRead [65, 66]) (by decide)).1,
    (C4_read_string_unterminated (Cursor.forRead [65, 66]) (by decide)).2.1⟩

theorem decodeLE_encodeLE_of_lt (w n : Nat) (h : n < 256 ^ w) :
    decodeLE (encodeLE w n) = n := by
  rw [decodeLE_encodeLE]; exact Nat.mod_eq_of_lt h

theorem take_encodeLE_append (w n : Nat) (l : List Nat) :
    (encodeLE w n ++ l).take w = encodeLE w n :=
  List.take_left' (encodeLE_length w n)

theorem drop_encodeLE_append (w n : Nat) (l : List Nat) :
    (encodeLE w n ++ l).drop w = l :=
  List.drop_left' (encodeLE_length w n)

/-- C5: a Message whose opcode fits the opcode field and whose declared length
(opcode width plus body length) fits the length field and does not exceed the
maximum message size is returned unchanged by `TryExtractFrame` from the bytes
of `EncodeFrame`, and exactly those bytes are consumed: what follows them
stays buffered. -/
theorem C5_frame_round_trip (f : FrameFormat) (m : Message) (rest : List Nat)
    (hop : m.opcode < 256 ^ f.opcodeWidth)
    (hlen : f.opcodeWidth + m.body.length < 256 ^ f.lengthWidth)
    (hmax : f.opcodeWidth + m.body.length ≤ f.maxMessageSize) :
    TryExtractFrame f (EncodeFrame f m ++ rest) = FrameResult.Frame m rest := by
  obtain ⟨opcode, body⟩ := m
  simp only at hop hlen hmax
  have h1 : (EncodeFrame f ⟨opcode, body⟩ ++ rest).length
      = f.headerSize + body.length + rest.length := by
    simp [EncodeFrame, encodeLE_length, FrameFormat.headerSize]; omega
  have h2 : (EncodeFrame f ⟨opcode, body⟩ ++ rest).take f.lengthWidth
      = encodeLE f.lengthWidth (f.opcodeWidth + body.length) := by
    simp only [EncodeFrame, List.append_assoc]
    exact take_encodeLE_append _ _ _
  have h3 : (EncodeFrame f ⟨opcode, body⟩ ++ rest).drop f.lengthWidth
      = encodeLE f.opcodeWidth opcode ++ (body ++ rest) := by
    simp only [EncodeFrame, List.append_assoc]
    exact drop_encodeLE_append _ _ _
  have h4 : (EncodeFrame f ⟨opcode, body⟩ ++ rest).drop f.headerSize = body ++ rest := by
    rw [FrameFormat.headerSize, ← List.drop_drop, h3]
    exact drop_encodeLE_append _ _ _
  have h5 : (EncodeFrame f ⟨opcode, body⟩ ++ rest).drop (f.headerSize + body.length)
      = rest := by
    rw [← List.drop_drop, h4]
    exact List.drop_left' rfl
  have hpay : f.opcodeWidth + body.length - f.opcodeWidth = body.length := by omega
  unfold TryExtractFrame
  rw [h1, h2, decodeLE_encodeLE_of_lt _ _ hlen]
  simp only [hpay, h3, h4, h5, take_encodeLE_append, decodeLE_encodeLE_of_lt _ _ hop]
  rw [if_neg (by omega), if_neg (by omega), if_neg (by omega)]
  simp

/-- Witness of C5: the frame of the spec's scenario (length 5, two-byte opcode
3, body `"AB\0"`), followed by one more byte. -/
theorem C5_frame_round_trip_witness :
    TryExtractFrame { lengthWidth := 2, opcodeWidth := 2, maxMessageSize := 1024 }
        (EncodeFrame { lengthWidth := 2, opcodeWidth := 2, maxMessageSize := 1024 }
          { opcode := 3, body := [65, 66, 0] } ++ [9]) =
      FrameResult.Frame { opcode := 3, body := [65, 66, 0] } [9] :=
  C5_frame_round_trip { lengthWidth := 2, opcodeWidth := 2, maxMessageSize := 1024 }
    { opcode := 3, body := [65, 66, 0] } [9] (by norm_num) (by norm_num [List.length])
    (by norm_num [List.length])

theorem TryExtractFrame_append_frame (f : FrameFormat) (buf x : List Nat) (m : Message)
    (rest : List Nat) (h : TryExtractFrame f buf = FrameResult.Frame m rest) :
    TryExtractFrame f (buf ++ x) = FrameResult.Frame m (rest ++ x) := by
  unfold TryExtractFrame at h ⊢
  by_cases h1 : buf.length < f.headerSize
  · simp [h1] at h
  · rw [if_neg h1] at h
    have hlw : f.lengthWidth ≤ buf.length := by
      simp only [FrameFormat.headerSize] at h1; omega
    have htake : (buf ++ x).take f.lengthWidth = buf.take f.lengthWidth :=
      List.take_append_of_le_length hlw
    simp only at h
    by_cases h2 : f.maxMessageSize < decodeLE (buf.take f.lengthWidth)
    · simp [h2] at h
    · rw [if_neg h2] at h
      by_cases h3 : buf.length < f.headerSize + (decodeLE (buf.take f.lengthWidth) - f.opcodeWidth)
      · simp [h3] at h
      · rw [if_neg h3] at h
        simp only [FrameResult.Frame.injEq] at h
        obtain ⟨hm, hrest⟩ := h
        have hhs : f.headerSize ≤ buf.length := by omega
        have hd1 : (buf ++ x).drop f.lengthWidth = buf.drop f.lengthWidth ++ x :=
          List.drop_append_of_le_length hlw
        have hd2 : (buf ++ x).drop f.headerSize = buf.drop f.headerSize ++ x :=
          List.drop_append_of_le_length hhs
        have hd3 : (buf ++ x).drop
              (f.headerSize + (decodeLE (buf.take f.lengthWidth) - f.opcodeWidth))
            = buf.drop (f.headerSize + (decodeLE (buf.take f.lengthWidth) - f.opcodeWidth))
              ++ x :=
          List.drop_append_of_le_length (by omega)
        have ht1 : (buf.drop f.lengthWidth ++ x).take f.opcodeWidth
            = (buf.drop f.lengthWidth).take f.opcodeWidth :=
          List.take_append_of_le_length (by
            simp only [List.length_drop, FrameFormat.headerSize] at *; omega)
        have ht2 : (buf.drop f.headerSize ++ x).take
              (decodeLE (buf.take f.lengthWidth) - f.opcodeWidth)
            = (buf.drop f.headerSize).take
              (decodeLE (buf.take f.lengthWidth) - f.opcodeWidth) :=
          List.take_append_of_le_length (by simp only [List.length_drop]; omega)
        rw [if_neg (by simp only [List.length_append]; omega)]
        simp only [htake]
        rw [if_neg h2, if_neg (by simp only [List.length_append]; omega)]
        rw [hd1, hd2, hd3, ht1, ht2, hm, hrest]

theorem TryExtractFrame_append_oversized (f : FrameFormat) (buf x : List Nat)
    (h : TryExtractFrame f buf = FrameResult.OversizedMessage) :
    TryExtractFrame f (buf ++ x) = FrameResult.OversizedMessage := by
  unfold TryExtractFrame at h ⊢
  by_cases h1 : buf.length < f.headerSize
  · simp [h1] at h
  · rw [if_neg h1] at h
    have hlw : f.lengthWidth ≤ buf.length := by
      simp only [FrameFormat.headerSize] at h1; omega
    have htake : (buf ++ x).take f.lengthWidth = buf.take f.lengthWidth :=
      List.take_append_of_le_length hlw
    simp only at h
    by_cases h2 : f.maxMessageSize < decodeLE (buf.take f.lengthWidth)
    · rw [if_neg (by simp only [List.length_append]; omega)]
      simp only [htake]
      rw [if_pos h2]
    · rw [if_neg h2] at h
      by_cases h3 : buf.length < f.headerSize + (decodeLE (buf.take f.lengthWidth) - f.opcodeWidth)
      · simp [h3] at h
      · simp [h3] at h

theorem TryExtractFrame_rest_length (f : FrameFormat) (buf : List Nat) (m : Message)
    (rest : List Nat) (h : TryExtractFrame f buf = FrameResult.Frame m rest) :
    rest.length + f.headerSize ≤ buf.length := by
  unfold TryExtractFrame at h
  by_cases h1 : buf.length < f.headerSize
  · simp [h1] at h
  · rw [if_neg h1] at h
    simp only at h
    by_cases h2 : f.maxMessageSize < decodeLE (buf.take f.lengthWidth)
    · simp [h2] at h
    · rw [if_neg h2] at h
      by_cases h3 : buf.length < f.headerSize + (decodeLE (buf.take f.lengthWidth) - f.opcodeWidth)
      · simp [h3] at h
      · rw [if_neg h3] at h
        simp only [FrameResult.Frame.injEq] at h
        rw [← h.2, List.length_drop]
        omega

theorem TryExtractFrame_nil (f : FrameFormat) (hf : 0 < f.headerSize) :
    TryExtractFrame f [] = FrameResult.NeedMoreData := by
  simp [TryExtractFrame, hf]

theorem extractFrames_fuel (f : FrameFormat) (hf : 0 < f.headerSize) :
    ∀ (n m : Nat) (buf : List Nat), buf.length ≤ n → buf.length ≤ m →
      extractFrames f n buf = extractFrames f m buf := by
  intro n
  induction n with
  | zero =>
    intro m buf hn _
    have hnil : buf = [] := List.length_eq_zero.mp (Nat.le_zero.mp hn)
    subst hnil
    cases m with
    | zero => rfl
    | succ m => simp [extractFrames, TryExtractFrame_nil f hf]
  | succ n ih =>
    intro m buf hn hm
    cases m with
    | zero =>
      have hnil : buf = [] := List.length_eq_zero.mp (Nat.le_zero.mp hm)
      subst hnil
      simp [extractFrames, TryExtractFrame_nil f hf]
    | succ m =>
      cases h : TryExtractFrame f buf with
      | NeedMoreData => simp [extractFrames, h]
      | OversizedMessage => simp [extractFrames, h]
      | Frame msg rest =>
        have hr := TryExtractFrame_rest_length f buf msg rest h
        have e := ih m rest (by omega) (by omega)
        simp [extractFrames, h, e]

/-- One unfolding of the frame extraction with enough fuel. -/
theorem extractFrames_step (f : FrameFormat) (hf : 0 < f.headerSize) (buf : List Nat) :
    extractFrames f buf.length buf =
      match TryExtractFrame f buf with
      | FrameResult.NeedMoreData => ([], { buffer := buf, closed := false })
      | FrameResult.OversizedMessage => ([], { buffer := [], closed := true })
      | FrameResult.Frame m rest =>
        ((m :: (extractFrames f rest.length rest).1), (extractFrames f rest.length rest).2) := by
  cases hb : buf with
  | nil => simp [extractFrames, TryExtractFrame_nil f hf]
  | cons a l =>
    rw [← hb]
    have hlen : buf.length = l.length + 1 := by rw [hb]; rfl
    rw [hlen]
    cases h : TryExtractFrame f buf with
    | NeedMoreData => simp [extractFrames, h]
    | OversizedMessage => simp [extractFrames, h]
    | Frame msg rest =>
      have hr := TryExtractFrame_rest_length f buf msg rest h
      have e := extractFrames_fuel f hf l.length rest.length rest (by omega) (le_refl _)
      simp [extractFrames, h, e]

/-- Extraction from a buffer followed by more bytes: the Messages of the
buffer, then what the delivery of the further bytes yields. -/
theorem extractFrames_append (f : FrameFormat) (hf : 0 < f.headerSize) :
    ∀ (k : Nat) (buf x : List Nat), buf.length ≤ k →
      extractFrames f (buf ++ x).length (buf ++ x) =
        ((extractFrames f buf.length buf).1
            ++ ((extractFrames f buf.length buf).2.feed f x).1,
          ((extractFrames f buf.length buf).2.feed f x).2) := by
  intro k
  induction k with
  | zero =>
    intro buf x hk
    have hnil : buf = [] := List.length_eq_zero.mp (Nat.le_zero.mp hk)
    subst hnil
    simp [extractFrames, FrameDecoder.feed]
  | succ k ih =>
    intro buf x hk
    rw [extractFrames_step f hf (buf ++ x), extractFrames_step f hf buf]
    cases h : TryExtractFrame f buf with
    | NeedMoreData =>
      simp only [FrameDecoder.feed, List.nil_append]
      rw [extractFrames_step f hf (buf ++ x)]
      simp
    | OversizedMessage =>
      rw [TryExtractFrame_append_oversized f buf x h]
      simp [FrameDecoder.feed]
    | Frame msg rest =>
      rw [TryExtractFrame_append_frame f buf x msg rest h]
      have hr := TryExtractFrame_rest_length f buf msg rest h
      have e := ih rest x (by omega)
      simp only [e, List.cons_append]

theorem feed_nil_of_extracted (f : FrameFormat) (hf : 0 < f.headerSize) (s : List Nat) :
    (extractFrames f s.length s).2.feed f [] = ([], (extractFrames f s.length s).2) := by
  have e := extractFrames_append f hf s.length s [] (le_refl _)
  rw [List.append_nil] at e
  have e1 := congrArg Prod.fst e
  have e2 := congrArg Prod.snd e
  simp only at e1 e2
  have e3 : ((extractFrames f s.length s).2.feed f []).1 = [] := by
    have e4 : (extractFrames f s.length s).1 ++ ((extractFrames f s.length s).2.feed f []).1
        = (extractFrames f s.length s).1 ++ [] := by
      rw [List.append_nil]; exact e1.symm
    exact List.append_cancel_left e4
  exact Prod.ext e3 e2.symm

theorem feed_append_of_extracted (f : FrameFormat) (hf : 0 < f.headerSize)
    (s x y : List Nat) :
    (extractFrames f s.length s).2.feed f (x ++ y) =
      (((extractFrames f s.length s).2.feed f x).1
          ++ (((extractFrames f s.length s).2.feed f x).2.feed f y).1,
        (((extractFrames f s.length s).2.feed f x).2.feed f y).2) := by
  have e1 := extractFrames_append f hf s.length s (x ++ y) (le_refl _)
  have e2 := extractFrames_append f hf (s ++ x).length (s ++ x) y (le_refl _)
  have e3 := extractFrames_append f hf s.length s x (le_refl _)
  rw [List.append_assoc, e1, e3] at e2
  simp only [List.append_assoc] at e2
  have h1 := congrArg Prod.fst e2
  have h2 := congrArg Prod.snd e2
  simp only at h1 h2
  exact Prod.ext (List.append_cancel_left h1) h2

theorem feedAll_of_extracted (f : FrameFormat) (hf : 0 < f.headerSize) :
    ∀ (chunks : List (List Nat)) (s : List Nat),
      FrameDecoder.feedAll f (extractFrames f s.length s).2 chunks =
        (extractFrames f s.length s).2.feed f chunks.flatten := by
  intro chunks
  induction chunks with
  | nil =>
    intro s
    simp only [FrameDecoder.feedAll, List.flatten_nil]
    exact (feed_nil_of_extracted f hf s).symm
  | cons chunk chunks ih =>
    intro s
    have e3 := extractFrames_append f hf s.length s chunk (le_refl _)
    have hd : (extractFrames f s.length s).2.feed f chunk
        = (((extractFrames f s.length s).2.feed f chunk).1,
            (extractFrames f (s ++ chunk).length (s ++ chunk)).2) := by
      rw [e3]
    simp only [FrameDecoder.feedAll, List.flatten_cons]
    rw [feed_append_of_extracted f hf s chunk chunks.flatten]
    have hd2 : ((extractFrames f s.length s).2.feed f chunk).2
        = (extractFrames f (s ++ chunk).length (s ++ chunk)).2 := by rw [e3]
    rw [hd2, ih (s ++ chunk)]

theorem extractFrames_drained (f : FrameFormat) (hf : 0 < f.headerSize) :
    ∀ (k : Nat) (buf : List Nat), buf.length ≤ k →
      ((extractFrames f buf.length buf).2.closed = true ∨
        TryExtractFrame f (extractFrames f buf.length buf).2.buffer
          = FrameResult.NeedMoreData) := by
  intro k
  induction k with
  | zero =>
    intro buf hk
    have hnil : buf = [] := List.length_eq_zero.mp (Nat.le_zero.mp hk)
    subst hnil
    exact Or.inr (TryExtractFrame_nil f hf)
  | succ k ih =>
    intro buf hk
    rw [extractFrames_step f hf buf]
    cases h : TryExtractFrame f buf with
    | NeedMoreData => exact Or.inr h
    | OversizedMessage => exact Or.inl rfl
    | Frame msg rest =>
      have hr := TryExtractFrame_rest_length f buf msg rest h
      exact ih rest (by omega)

/-- C6: framing does not depend on chunking. For a frame format with a header
and every split of a byte stream into consecutive chunks, delivering the
chunks one after another to a fresh decoder yields the same sequence of
Messages (and leaves the same decoder state) as delivering the unsplit
stream; and no complete frame is left behind: afterwards the connection is
closed or `TryExtractFrame` on the buffered bytes needs more data. -/
theorem C6_framing_chunking_agnostic (f : FrameFormat) (hf : 0 < f.headerSize)
    (chunks : List (List Nat)) :
    FrameDecoder.feedAll f FrameDecoder.init chunks =
      FrameDecoder.init.feed f chunks.flatten ∧
    ((FrameDecoder.feedAll f FrameDecoder.init chunks).2.closed = true ∨
      TryExtractFrame f (FrameDecoder.feedAll f FrameDecoder.init chunks).2.buffer
        = FrameResult.NeedMoreData) := by
  have h := feedAll_of_extracted f hf chunks []
  have h1 : FrameDecoder.feedAll f FrameDecoder.init chunks =
      FrameDecoder.init.feed f chunks.flatten := by
    simpa [extractFrames, FrameDecoder.init] using h
  refine ⟨h1, ?_⟩
  rw [h1]
  have h2 : FrameDecoder.init.feed f chunks.flatten
      = extractFrames f chunks.flatten.length chunks.flatten := by
    simp [FrameDecoder.feed, FrameDecoder.init]
  rw [h2]
  exact extractFrames_drained f hf _ chunks.flatten (le_refl _)

/-- Witness of C6: the ten-byte frame of the spec's scenario delivered as four
bytes and then six yields the one Message of the unsplit stream. -/
theorem C6_framing_chunking_agnostic_witness :
    FrameDecoder.feedAll { lengthWidth := 2, opcodeWidth := 2, maxMessageSize := 1024 }
        FrameDecoder.init [[8, 0, 3, 0], [1, 2, 3, 4, 5, 6]] =
      ([{ opcode := 3, body := [1, 2, 3, 4, 5, 6] }], { buffer := [], closed := false }) :=
  (C6_framing_chunking_agnostic { lengthWidth := 2, opcodeWidth := 2, maxMessageSize := 1024 }
    (by decide) [[8, 0, 3, 0], [1, 2, 3, 4, 5, 6]]).1.trans (by rfl)

/-- C7: for every session and every message whose opcode has no entry in the
dispatch table, `Dispatch` returns the signal `UnknownOpcode` (no fault is
raised), produces no reply and returns the session as it was, so the
connection is not closed by the call. -/
theorem C7_dispatch_unknown_opcode (table : List DispatchEntry) (session : Session)
    (message : Message) (h : ∀ e ∈ table, e.opcode ≠ message.opcode) :
    Dispatch table session message =
      { signal := DispatchSignal.UnknownOpcode, replies := [], session := session } := by
  have hfind : table.find? (fun e => e.opcode == message.opcode) = none := by
    rw [List.find?_eq_none]
    intro e he
    simp [h e he]
  simp [Dispatch, hfind]

/-- Witness of C7: opcode 4 is not registered in the example table. -/
theorem C7_dispatch_unknown_opcode_witness :
    Dispatch exampleTable { state := SessionState.Authenticated, actorIdentity := some 1 }
        { opcode := 4, body := [1] } =
      { signal := DispatchSignal.UnknownOpcode, replies := [],
        session := { state := SessionState.Authenticated, actorIdentity := some 1 } } :=
  C7_dispatch_unknown_opcode exampleTable
    { state := SessionState.Authenticated, actorIdentity := some 1 }
    { opcode := 4, body := [1] } (by simp [exampleTable])

/-- C8: for an empty body `HandleGuildMOTDOpcode` performs no read (the cursor
is returned as it was) and does not fail; the guild after the call and the
packets and events sent are those of the call on a body that consists of a
single zero byte, which does not fail either; for a sender whose rank has the
set-MOTD right the MOTD of the guild becomes the empty string and the empty
MOTD is broadcast. -/
theorem C8_motd_empty_body (HasRankRight : Guild → Nat → GuildRankRight → Bool)
    (player : GuildPlayer) :
    (HandleGuildMOTDOpcode HasRankRight player (Cursor.forRead [])).1 = Except.ok () ∧
    (HandleGuildMOTDOpcode HasRankRight player (Cursor.forRead [])).2.1 = Cursor.forRead [] ∧
    (HandleGuildMOTDOpcode HasRankRight player (Cursor.forRead [0])).1 = Except.ok () ∧
    (HandleGuildMOTDOpcode HasRankRight player (Cursor.forRead [])).2.2 =
      (HandleGuildMOTDOpcode HasRankRight player (Cursor.forRead [0])).2.2 ∧
    (∀ guild, player.guild = some guild →
      HasRankRight guild player.rank GuildRankRight.GR_RIGHT_SETMOTD = true →
      (HandleGuildMOTDOpcode HasRankRight player (Cursor.forRead [])).2.2 =
        (some { guild with MOTD := [] },
          [GuildEffect.BroadcastEvent GuildEvents.GE_MOTD [[]]])) := by
  have hread : ReadString { buffer := [0], position := 0 } =
      (Except.ok [], { buffer := [0], position := 1 }) := by
    rfl
  cases hg : player.guild with
  | none =>
    simp [HandleGuildMOTDOpcode, Cursor.forRead, hg, hread] 
  | some guild =>
    by_cases hr : HasRankRight guild player.rank GuildRankRight.GR_RIGHT_SETMOTD = true
    · simp [HandleGuildMOTDOpcode, Cursor.forRead, hg, hr, hread]
    · simp [HandleGuildMOTDOpcode, Cursor.forRead, hg, hr, hread]

/-- Witness of C8: the guild master of the example guild sends an empty body;
the MOTD `"hello"` is replaced by the empty string. -/
theorem C8_motd_empty_body_witness :
    (HandleGuildMOTDOpcode exampleHasRankRight examplePlayer (Cursor.forRead [])).2.2 =
      (some { exampleGuild with MOTD := [] },
        [GuildEffect.BroadcastEvent GuildEvents.GE_MOTD [[]]]) :=
  (C8_motd_empty_body exampleHasRankRight examplePlayer).2.2.2.2 exampleGuild rfl rfl

/-- C9: `processChatmessageFurtherAfterSecurityChecks` calls `KickPlayer`
exactly when the language is not `LANG_ADDON`, the severity setting of the
strict link checking is non-zero, the security level of the sender is below
`SEC_MODERATOR`, the message (as checked, that is after the stripping of
invisible characters when that is configured) fails `isValidChatMessage`, and
the kick setting is non-zero; it returns false exactly when the first four
hold; for `LANG_ADDON` it returns true, leaves the text unchanged and has no
effect. -/
theorem C9_chat_kick_on_violation (w : ChatWorld) (security : Nat) (msg : List Nat)
    (lang : Nat) :
    (ChatEffect.KickPlayer ∈ (processChatmessageFurtherAfterSecurityChecks w security msg lang).2.2
      ↔ (lang ≠ w.LANG_ADDON ∧ w.CONFIG_UINT32_CHAT_STRICT_LINK_CHECKING_SEVERITY ≠ 0 ∧
          security < w.SEC_MODERATOR ∧ w.isValidChatMessage (checkedChatMessage w msg) = false ∧
          w.CONFIG_UINT32_CHAT_STRICT_LINK_CHECKING_KICK ≠ 0)) ∧
    ((processChatmessageFurtherAfterSecurityChecks w security msg lang).1 = false
      ↔ (lang ≠ w.LANG_ADDON ∧ w.CONFIG_UINT32_CHAT_STRICT_LINK_CHECKING_SEVERITY ≠ 0 ∧
          security < w.SEC_MODERATOR ∧ w.isValidChatMessage (checkedChatMessage w msg) = false)) ∧
    (lang = w.LANG_ADDON →
      processChatmessageFurtherAfterSecurityChecks w security msg lang = (true, msg, [])) := by
  unfold processChatmessageFurtherAfterSecurityChecks checkedChatMessage
  generalize (if w.CONFIG_BOOL_CHAT_FAKE_MESSAGE_PREVENTING = true then
    w.stripLineInvisibleChars msg else msg) = checked
  by_cases hl : lang = w.LANG_ADDON
  · simp [hl]
  · by_cases hs : w.CONFIG_UINT32_CHAT_STRICT_LINK_CHECKING_SEVERITY = 0
    · simp [hl, hs]
    · by_cases hsec : security < w.SEC_MODERATOR
      · cases hv : w.isValidChatMessage checked
        · by_cases hk : w.CONFIG_UINT32_CHAT_STRICT_LINK_CHECKING_KICK = 0
          · simp [hl, hs, hsec, hv, hk]
          · simp [hl, hs, hsec, hv, hk]
        · simp [hl, hs, hsec, hv]
      · simp [hl, hs, hsec]

/-- Witness of C9: an addon message passes unchanged even when every message
fails the link check and kicking is configured. -/
theorem C9_chat_kick_on_violation_witness :
    processChatmessageFurtherAfterSecurityChecks exampleChatWorld 0 [104, 105] 0xFFFFFFFF =
      (true, [104, 105], []) :=
  (C9_chat_kick_on_violation exampleChatWorld 0 [104, 105] 0xFFFFFFFF).2.2 rfl

/-! ## Lemmas on the configuration -/

theorem isspace_tolower (b : Nat) : isspace (tolower b) = isspace b := by
  unfold isspace tolower
  split
  · rw [Bool.eq_iff_iff]; simp; omega
  · rfl

theorem isspace_comp_tolower : isspace ∘ tolower = isspace :=
  funext isspace_tolower

theorem rdropWhile_map (f : Nat → Nat) (p : Nat → Bool) (l : List Nat) :
    (l.map f).rdropWhile p = (l.rdropWhile (p ∘ f)).map f := by
  simp [List.rdropWhile, ← List.map_reverse, List.dropWhile_map]

theorem rdropWhile_dropWhile_comm (p : Nat → Bool) (l : List Nat) :
    (l.dropWhile p).rdropWhile p = (l.rdropWhile p).dropWhile p := by
  induction l using List.reverseRecOn with
  | nil => simp
  | append_singleton l a ih =>
    by_cases ha : p a = true
    · rw [List.rdropWhile_concat_pos _ _ _ ha, List.dropWhile_append]
      by_cases he : (l.dropWhile p).isEmpty = true
      · have hnil : l.dropWhile p = [] := List.isEmpty_iff.mp he
        have hall : ∀ x ∈ l, p x = true := by
          simpa [List.dropWhile_eq_nil_iff] using hnil
        have hr : l.rdropWhile p = [] := List.rdropWhile_eq_nil_iff.mpr hall
        simp [he, ha, hr]
      · rw [if_neg he, List.rdropWhile_concat_pos _ _ _ ha, ih]
    · rw [List.rdropWhile_concat_neg _ _ _ ha, List.dropWhile_append]
      by_cases he : (l.dropWhile p).isEmpty = true
      · rw [if_pos he]
        have h1 : [a].dropWhile p = [] ++ [a] := by simp [ha]
        rw [h1, List.rdropWhile_concat_neg _ _ _ ha]
      · rw [if_neg he, List.rdropWhile_concat_neg _ _ _ ha]

theorem trim_copy_to_lower_copy (s : List Nat) :
    trim_copy (to_lower_copy s) = to_lower_copy (trim_copy s) := by
  simp [trim_copy, trim_copy_if, to_lower_copy, rdropWhile_map, List.dropWhile_map,
    isspace_comp_tolower]

theorem trim_copy_trim_left (s : List Nat) : trim_copy (trim_left s) = trim_copy s := by
  simp only [trim_copy, trim_copy_if, trim_left]
  rw [rdropWhile_dropWhile_comm, List.dropWhile_idempotent]

theorem trim_left_append_eq (key value : List Nat) :
    trim_left (key ++ 61 :: value) = trim_left key ++ 61 :: value := by
  unfold trim_left
  induction key with
  | nil => simp [isspace]
  | cons a key ih =>
    by_cases ha : isspace a = true
    · simp [List.dropWhile_cons, ha, ih]
    · simp [List.dropWhile_cons, ha]

theorem find_append_of_not_mem (ch : Nat) (key value : List Nat) (h : ch ∉ key) :
    find ch (key ++ ch :: value) = some key.length := by
  induction key with
  | nil => simp [find]
  | cons a key ih =>
    have ha : a ≠ ch := fun e => h (by simp [e])
    have hk : ch ∉ key := fun e => h (List.mem_cons_of_mem a e)
    simp [find, ha, ih hk]

theorem not_mem_trim_left (ch : Nat) (key : List Nat) (h : ch ∉ key) : ch ∉ trim_left key :=
  fun e => h ((List.dropWhile_sublist isspace).subset e)

/-- The loop body on a line `key=value` that is not a comment or a section:
the stored key is the written key, trimmed and lower-cased. -/
theorem parseLine_key_value (key value : List Nat) (hk : 61 ∉ key)
    (h35 : (trim_left key).head? ≠ some 35) (h91 : (trim_left key).head? ≠ some 91) :
    parseLine (key ++ 61 :: value) =
      LineResult.Entry (to_lower_copy (trim_copy key))
        (trim_copy_if (trim_copy value) (fun b => b == 34)) := by
  have hhead : (trim_left key ++ 61 :: value).head? ≠ some 35 ∧
      (trim_left key ++ 61 :: value).head? ≠ some 91 := by
    cases hc : trim_left key with
    | nil => simp
    | cons a l =>
      rw [hc] at h35 h91
      simp only [List.head?_cons, ne_eq, Option.some.injEq] at h35 h91
      simp [h35, h91]
  have hd : (trim_left key ++ 61 :: value).drop ((trim_left key).length + 1) = value := by
    rw [← List.drop_drop]
    simp
  have ht : (trim_left key ++ 61 :: value).take (trim_left key).length = trim_left key := by
    simp
  unfold parseLine
  simp only [trim_left_append_eq]
  rw [if_neg (by simp), if_neg (not_or.mpr hhead),
    find_append_of_not_mem 61 _ value (not_mem_trim_left 61 key hk)]
  simp only [hd, ht, trim_copy_to_lower_copy, trim_copy_trim_left]

theorem Entries_find_set_self (m : Entries) (key value : List Nat) :
    Entries.find (Entries.set m key value) key = some value := by
  induction m with
  | nil => simp [Entries.set, Entries.find]
  | cons e m ih =>
    obtain ⟨k, v⟩ := e
    simp only [Entries.set]
    by_cases h : k = key
    · rw [if_pos h]; simp only [Entries.find, if_pos h]
    · rw [if_neg h]; simp only [Entries.find, if_neg h]; exact ih

theorem Entries_find_set_isSome (m : Entries) (key value k0 : List Nat)
    (h : (Entries.find m k0).isSome = true) :
    (Entries.find (Entries.set m key value) k0).isSome = true := by
  induction m with
  | nil => simp [Entries.find] at h
  | cons e m ih =>
    obtain ⟨k, v⟩ := e
    simp only [Entries.set]
    by_cases hk : k = key
    · rw [if_pos hk]
      by_cases hk0 : k = k0
      · simp only [Entries.find, if_pos hk0]; rfl
      · simp only [Entries.find, if_neg hk0] at h ⊢; exact h
    · rw [if_neg hk]
      by_cases hk0 : k = k0
      · simp only [Entries.find, if_pos hk0]; rfl
      · simp only [Entries.find, if_neg hk0] at h ⊢; exact ih h

theorem reloadLines_keeps_keys (lines : List (List Nat)) :
    ∀ (acc m : Entries) (k0 : List Nat), reloadLines lines acc = some m →
      (Entries.find acc k0).isSome = true → (Entries.find m k0).isSome = true := by
  induction lines with
  | nil =>
    intro acc m k0 h hk
    simp only [reloadLines, Option.some.injEq] at h
    rw [← h]; exact hk
  | cons line lines ih =>
    intro acc m k0 h hk
    unfold reloadLines at h
    cases hp : parseLine line with
    | Ignored => rw [hp] at h; exact ih acc m k0 h hk
    | Malformed => rw [hp] at h; simp at h
    | Entry entry value =>
      rw [hp] at h
      exact ih _ m k0 h (Entries_find_set_isSome acc entry value k0 hk)

theorem reloadLines_has_key (lines : List (List Nat)) :
    ∀ (acc m : Entries) (line entry value : List Nat), reloadLines lines acc = some m →
      line ∈ lines → parseLine line = LineResult.Entry entry value →
      (Entries.find m entry).isSome = true := by
  induction lines with
  | nil => intro acc m line entry value _ hmem; simp at hmem
  | cons l lines ih =>
    intro acc m line entry value h hmem hline
    unfold reloadLines at h
    rcases List.mem_cons.mp hmem with heq | htail
    · subst heq
      rw [hline] at h
      simp only at h
      exact reloadLines_keeps_keys lines _ m entry h
        (by rw [Entries_find_set_self]; rfl)
    · cases hp : parseLine l with
      | Ignored => rw [hp] at h; exact ih acc m line entry value h htail hline
      | Malformed => rw [hp] at h; simp at h
      | Entry e v => rw [hp] at h; exact ih _ m line entry value h htail hline

/-- C10: configuration keys are case-insensitive. After a `Reload` that
accepted the file, two names that are equal after lower-casing get the same
answer from `IsSet` and from `GetStringDefault` with every default; and a key
written in a line `key=value` of the file (not a comment or section line) is
found by every query name that equals the written key, without its
surrounding whitespace, up to letter case. -/
theorem C10_config_keys_case_insensitive (files : List Nat → Option (List Nat))
    (cfg : Config) (content : List Nat) (hopen : files cfg.m_filename = some content)
    (hok : (Config.Reload files cfg).1 = true) (n1 n2 : List Nat)
    (hn : to_lower_copy n1 = to_lower_copy n2) :
    (Config.Reload files cfg).2.IsSet n1 = (Config.Reload files cfg).2.IsSet n2 ∧
    (∀ d, (Config.Reload files cfg).2.GetStringDefault n1 d =
      (Config.Reload files cfg).2.GetStringDefault n2 d) ∧
    (∀ key value name : List Nat, (key ++ 61 :: value) ∈ getlines content → 61 ∉ key →
      (trim_left key).head? ≠ some 35 → (trim_left key).head? ≠ some 91 →
      to_lower_copy name = to_lower_copy (trim_copy key) →
      (Config.Reload files cfg).2.IsSet name = true) := by
  refine ⟨by simp [Config.IsSet, hn], fun d => by simp [Config.GetStringDefault, hn], ?_⟩
  intro key value name hmem hk h35 h91 hname
  unfold Config.Reload at hok ⊢
  rw [hopen] at hok ⊢
  simp only at hok ⊢
  cases hr : reloadLines (getlines content) [] with
  | none => rw [hr] at hok; simp at hok
  | some newEntries =>
    simp only [Config.IsSet]
    rw [hname]
    exact reloadLines_has_key (getlines content) [] newEntries _ _ _ hr hmem
      (parseLine_key_value key value hk h35 h91)

/-- Witness of C10: the example file writes the key as `KeY`; the names `KEY`
and `key` are answered alike and `kEy` is set. -/
theorem C10_config_keys_case_insensitive_witness :
    (Config.Reload exampleFiles { m_filename := [], m_entries := [] }).2.IsSet (bytes "KEY") =
      (Config.Reload exampleFiles { m_filename := [], m_entries := [] }).2.IsSet (bytes "key") ∧
    (Config.Reload exampleFiles { m_filename := [], m_entries := [] }).2.IsSet (bytes "kEy")
      = true :=
  ⟨(C10_config_keys_case_insensitive exampleFiles { m_filename := [], m_entries := [] }
      exampleConfigFile rfl (by decide) (bytes "KEY") (bytes "key") (by decide)).1,
    (C10_config_keys_case_insensitive exampleFiles { m_filename := [], m_entries := [] }
      exampleConfigFile rfl (by decide) (bytes "KEY") (bytes "key") (by decide)).2.2
      (bytes "KeY ") (bytes " \"v 1\"") (bytes "kEy") (by decide) (by decide) (by decide)
      (by decide) (by decide)⟩

/-! ## Lemmas on the lines of a configuration file -/

theorem head?_trim_left (l : List Nat) : (trim_left l).head? = firstNonSpace l := by
  induction l with
  | nil => rfl
  | cons a l ih =>
    by_cases ha : isspace a = true
    · simp only [trim_left, firstNonSpace] at ih ⊢
      simp [List.dropWhile_cons, List.find?_cons, ha, ih]
    · simp only [trim_left, firstNonSpace]
      simp [List.dropWhile_cons, List.find?_cons, ha]

theorem trim_left_eq_nil_iff (l : List Nat) : trim_left l = [] ↔ l.all isspace = true := by
  simp [trim_left, List.dropWhile_eq_nil_iff]

theorem parseLine_ignored_iff (l : List Nat) :
    parseLine l = LineResult.Ignored ↔ lineIsIgnorable l = true := by
  unfold parseLine lineIsIgnorable
  simp only [List.length_eq_zero, trim_left_eq_nil_iff, head?_trim_left]
  by_cases h1 : l.all isspace = true
  · simp [h1]
  · by_cases h2 : firstNonSpace l = some 35 ∨ firstNonSpace l = some 91
    · rw [if_neg h1, if_pos h2]
      rcases h2 with h2 | h2 <;> simp [h2]
    · rw [if_neg h1, if_neg h2]
      have h3 := not_or.mp h2
      cases hf : find 61 (trim_left l) with
      | none => simp [h1, h3.1, h3.2]
      | some equals => simp [h1, h3.1, h3.2]

theorem find_eq_none_iff (ch : Nat) (l : List Nat) : find ch l = none ↔ ch ∉ l := by
  induction l with
  | nil => simp [find]
  | cons a l ih =>
    by_cases ha : a = ch
    · simp [find, ha]
    · have hne : ¬ ch = a := fun e => ha e.symm
      simp [find, ha, hne, ih]

theorem mem_trim_left_iff (l : List Nat) : 61 ∈ trim_left l ↔ 61 ∈ l := by
  unfold trim_left
  induction l with
  | nil => simp
  | cons a l ih =>
    by_cases ha : isspace a = true
    · have hne : ¬ 61 = a := by
        intro e; rw [← e] at ha; simp [isspace] at ha
      simp [List.dropWhile_cons, ha, ih, hne]
    · simp [List.dropWhile_cons, ha]

theorem parseLine_malformed_iff (l : List Nat) :
    parseLine l = LineResult.Malformed ↔ (lineIsIgnorable l = false ∧ 61 ∉ l) := by
  by_cases hig : lineIsIgnorable l = true
  · have h := (parseLine_ignored_iff l).mpr hig
    simp [h, hig]
  · have hni : parseLine l ≠ LineResult.Ignored := fun e => hig ((parseLine_ignored_iff l).mp e)
    have hf : lineIsIgnorable l = false := by simpa using hig
    simp only [hf, true_and]
    rw [← mem_trim_left_iff, ← find_eq_none_iff]
    unfold parseLine at hni ⊢
    by_cases h1 : (trim_left l).length = 0
    · simp [h1] at hni
    · rw [if_neg h1] at hni ⊢
      by_cases h2 : (trim_left l).head? = some 35 ∨ (trim_left l).head? = some 91
      · simp [h2] at hni
      · rw [if_neg h2]
        cases hfd : find 61 (trim_left l) with
        | none => simp
        | some equals => simp

theorem reloadLines_eq_none_iff (lines : List (List Nat)) :
    ∀ acc : Entries, reloadLines lines acc = none ↔
      ∃ line ∈ lines, parseLine line = LineResult.Malformed := by
  induction lines with
  | nil => intro acc; simp [reloadLines]
  | cons l lines ih =>
    intro acc
    unfold reloadLines
    cases hp : parseLine l with
    | Ignored => simp [ih acc, hp]
    | Malformed => simp [hp]
    | Entry e v => simp [ih, hp]

/-- C11: `Config::Reload` fails atomically. It returns false exactly when the
file cannot be opened or some line that is not ignored (not blank, not
starting with `#` or `[` after leading whitespace) contains no `=`; when it
returns false the configuration is as before, and after a failed `SetSource`
the entries are as before, so every `IsSet` and `GetStringDefault` query
answers as before. -/
theorem C11_reload_fails_atomically (files : List Nat → Option (List Nat)) (cfg : Config) :
    ((Config.Reload files cfg).1 = false ↔
      (files cfg.m_filename = none ∨
        ∃ content, files cfg.m_filename = some content ∧
          ∃ line ∈ getlines content, lineIsIgnorable line = false ∧ 61 ∉ line)) ∧
    ((Config.Reload files cfg).1 = false → (Config.Reload files cfg).2 = cfg) ∧
    (∀ file, (Config.SetSource files cfg file).1 = false →
      (Config.SetSource files cfg file).2.m_entries = cfg.m_entries ∧
      ∀ name d, (Config.SetSource files cfg file).2.IsSet name = cfg.IsSet name ∧
        (Config.SetSource files cfg file).2.GetStringDefault name d
          = cfg.GetStringDefault name d) := by
  have hfail : ∀ c : Config, (Config.Reload files c).1 = false →
      (Config.Reload files c).2 = c := by
    intro c h
    unfold Config.Reload at h ⊢
    cases hf : files c.m_filename with
    | none => rfl
    | some content =>
      rw [hf] at h
      simp only at h ⊢
      cases hr : reloadLines (getlines content) [] with
      | none => rfl
      | some newEntries => rw [hr] at h; simp at h
  refine ⟨?_, hfail cfg, ?_⟩
  · unfold Config.Reload
    cases hf : files cfg.m_filename with
    | none => simp
    | some content =>
      simp only
      cases hr : reloadLines (getlines content) [] with
      | none =>
        have h := (reloadLines_eq_none_iff (getlines content) []).mp hr
        obtain ⟨line, hmem, hmal⟩ := h
        have hb := (parseLine_malformed_iff line).mp hmal
        simp only [true_iff]
        exact Or.inr ⟨content, rfl, line, hmem, hb⟩
      | some newEntries =>
        simp only [Bool.true_eq_false, false_iff, not_or, not_exists, not_and]
        refine ⟨by simp, ?_⟩
        intro c hc line hmem hig h61
        have hcc : content = c := Option.some.inj hc
        subst hcc
        have hmal := (parseLine_malformed_iff line).mpr ⟨hig, h61⟩
        have hnone := (reloadLines_eq_none_iff (getlines content) []).mpr ⟨line, hmem, hmal⟩
        rw [hnone] at hr
        simp at hr
  · intro file h
    unfold Config.SetSource at h ⊢
    rw [hfail _ h]
    exact ⟨rfl, fun name d => ⟨rfl, rfl⟩⟩

/-- Witness of C11: the file `a=1`, `bad line`, `b=2` is refused although a
valid line precedes the bad one, and the entry loaded before is still there. -/
theorem C11_reload_fails_atomically_witness :
    (Config.Reload exampleBadFiles exampleLoadedConfig).1 = false ∧
    (Config.Reload exampleBadFiles exampleLoadedConfig).2 = exampleLoadedConfig ∧
    (Config.SetSource exampleBadFiles exampleLoadedConfig (bytes "other.conf")).2.m_entries
      = exampleLoadedConfig.m_entries :=
  ⟨(C11_reload_fails_atomically exampleBadFiles exampleLoadedConfig).1.mpr
      (Or.inr ⟨exampleBadConfigFile, rfl, bytes "bad line", by decide, by decide, by decide⟩),
    (C11_reload_fails_atomically exampleBadFiles exampleLoadedConfig).2.1 (by decide),
    ((C11_reload_fails_atomically exampleBadFiles exampleLoadedConfig).2.2 (bytes "other.conf")
      (by decide)).1⟩

theorem getlines_ne_nil (l : List Nat) : getlines l ≠ [] := by
  cases l with
  | nil => simp [getlines]
  | cons a l =>
    unfold getlines
    by_cases ha : a = 10
    · simp [ha]
    · rw [if_neg ha]
      cases getlines l <;> simp

theorem getlines_append_newline (a b : List Nat) :
    getlines (a ++ 10 :: b) = getlines a ++ getlines b := by
  induction a with
  | nil => simp [getlines]
  | cons c a ih =>
    by_cases hc : c = 10
    · simp [getlines, hc, ih]
    · cases hg : getlines a with
      | nil => exact absurd hg (getlines_ne_nil a)
      | cons h t =>
        rw [hg] at ih
        simp [getlines, hc, ih, hg]

theorem getlines_of_no_newline (l : List Nat) (h : 10 ∉ l) : getlines l = [l] := by
  induction l with
  | nil => rfl
  | cons c l ih =>
    have hc : c ≠ 10 := fun e => h (by simp [e])
    have hl : 10 ∉ l := fun e => h (List.mem_cons_of_mem c e)
    simp [getlines, hc, ih hl]

theorem reloadLines_skip_ignored (l : List Nat) (hl : parseLine l = LineResult.Ignored)
    (L1 L2 : List (List Nat)) :
    ∀ acc : Entries, reloadLines (L1 ++ l :: L2) acc = reloadLines (L1 ++ L2) acc := by
  induction L1 with
  | nil => intro acc; simp [reloadLines, hl]
  | cons x L1 ih =>
    intro acc
    simp only [List.cons_append, reloadLines]
    cases parseLine x with
    | Ignored => exact ih acc
    | Malformed => rfl
    | Entry e v => exact ih _

theorem Reload_congr_lines (cfg : Config) (content content' : List Nat)
    (h : reloadLines (getlines content) [] = reloadLines (getlines content') []) :
    Config.Reload (fun _ => some content) cfg = Config.Reload (fun _ => some content') cfg := by
  simp [Config.Reload, h]

/-- C12: comment, section and blank lines are ignored by `Config::Reload`.
For a line that is empty, holds only whitespace, or whose first character
that is not whitespace is `#` or `[` (with or without an `=` in it), the file
with that line and the file without it give the same result and the same
entries: for any two contents whose lines differ by that line only, and so
for the line inserted after a line break, as first line, or as last line. -/
theorem C12_ignored_lines (cfg : Config) (l : List Nat) (hl : lineIsIgnorable l = true) :
    (∀ content content' L1 L2, getlines content = L1 ++ l :: L2 →
      getlines content' = L1 ++ L2 →
      Config.Reload (fun _ => some content) cfg
        = Config.Reload (fun _ => some content') cfg) ∧
    (10 ∉ l → ∀ pre post,
      Config.Reload (fun _ => some (pre ++ 10 :: (l ++ 10 :: post))) cfg
        = Config.Reload (fun _ => some (pre ++ 10 :: post)) cfg) ∧
    (10 ∉ l → ∀ post,
      Config.Reload (fun _ => some (l ++ 10 :: post)) cfg
        = Config.Reload (fun _ => some post) cfg) ∧
    (10 ∉ l → ∀ pre,
      Config.Reload (fun _ => some (pre ++ 10 :: l)) cfg
        = Config.Reload (fun _ => some pre) cfg) := by
  have hp : parseLine l = LineResult.Ignored := (parseLine_ignored_iff l).mpr hl
  refine ⟨?_, ?_, ?_, ?_⟩
  · intro content content' L1 L2 h1 h2
    apply Reload_congr_lines
    rw [h1, h2]
    exact reloadLines_skip_ignored l hp L1 L2 []
  · intro h10 pre post
    apply Reload_congr_lines
    rw [getlines_append_newline, getlines_append_newline, getlines_append_newline,
      getlines_of_no_newline l h10]
    exact reloadLines_skip_ignored l hp (getlines pre) (getlines post) []
  · intro h10 post
    apply Reload_congr_lines
    rw [getlines_append_newline, getlines_of_no_newline l h10]
    exact reloadLines_skip_ignored l hp [] (getlines post) []
  · intro h10 pre
    apply Reload_congr_lines
    rw [getlines_append_newline, getlines_of_no_newline l h10]
    have h := reloadLines_skip_ignored l hp (getlines pre) [] []
    simpa using h

/-- Witness of C12: the comment line `# a = b` (which contains an `=`) put
between the two lines of a file changes nothing. -/
theorem C12_ignored_lines_witness :
    Config.Reload (fun _ => some (bytes "x=1" ++ 10 :: (bytes "  # a = b" ++ 10 :: bytes "y=2")))
        exampleLoadedConfig
      = Config.Reload (fun _ => some (bytes "x=1" ++ 10 :: bytes "y=2")) exampleLoadedConfig :=
  (C12_ignored_lines exampleLoadedConfig (bytes "  # a = b") (by decide)).2.1 (by decide)
    (bytes "x=1") (bytes "y=2")

/-! ## Lemmas on key and value extraction -/

theorem rdropWhile_append_of_pos (p : Nat → Bool) (x b : List Nat)
    (hb : ∀ y ∈ b, p y = true) : (x ++ b).rdropWhile p = x.rdropWhile p := by
  unfold List.rdropWhile
  rw [List.reverse_append, List.dropWhile_append_of_pos]
  intro a ha
  exact hb a (List.mem_reverse.mp ha)

/-- Stripping the characters that satisfy `p` from both ends of `a ++ m ++ b`,
where `a` and `b` hold only such characters and `m` neither starts nor ends
with one, leaves `m`. -/
theorem trim_copy_if_core (p : Nat → Bool) (a m b : List Nat)
    (ha : ∀ x ∈ a, p x = true) (hb : ∀ x ∈ b, p x = true)
    (hh : ∀ x, m.head? = some x → p x = false)
    (ht : ∀ x, m.getLast? = some x → p x = false) :
    trim_copy_if (a ++ m ++ b) p = m := by
  unfold trim_copy_if
  rw [rdropWhile_append_of_pos p (a ++ m) b hb]
  rcases List.eq_nil_or_concat m with hm | ⟨L, z, hm⟩
  · subst hm
    rw [List.append_nil, List.rdropWhile_eq_nil_iff.mpr ha]
    rfl
  · rw [List.concat_eq_append] at hm
    have hz : p z = false := ht z (by rw [hm, List.getLast?_concat])
    have hz2 : ¬ p z = true := by simp [hz]
    have h1 : (a ++ m).rdropWhile p = a ++ m := by
      rw [hm, ← List.append_assoc]
      exact List.rdropWhile_concat_neg _ _ _ hz2
    rw [h1, List.dropWhile_append_of_pos ha]
    cases hc : m with
    | nil => rfl
    | cons h t =>
      have hph : p h = false := hh h (by rw [hc]; rfl)
      simp [List.dropWhile_cons, hph]

theorem trim_copy_core (a m b : List Nat)
    (ha : ∀ x ∈ a, isspace x = true) (hb : ∀ x ∈ b, isspace x = true)
    (hh : ∀ x, m.head? = some x → isspace x = false)
    (ht : ∀ x, m.getLast? = some x → isspace x = false) :
    trim_copy (a ++ m ++ b) = m :=
  trim_copy_if_core isspace a m b ha hb hh ht

theorem not_ignorable_key_head (key rest : List Nat)
    (h : lineIsIgnorable (key ++ 61 :: rest) = false) :
    (trim_left key).head? ≠ some 35 ∧ (trim_left key).head? ≠ some 91 := by
  have hfn : firstNonSpace (key ++ 61 :: rest) = (trim_left key ++ 61 :: rest).head? := by
    rw [← head?_trim_left, trim_left_append_eq]
  unfold lineIsIgnorable at h
  rw [hfn] at h
  simp only [Bool.or_eq_false_iff, beq_eq_false_iff_ne, ne_eq] at h
  cases hc : trim_left key with
  | nil => simp
  | cons a t =>
    rw [hc] at h
    simp only [List.cons_append, List.head?_cons, Option.some.injEq] at h
    simp [h.1.2, h.2]

theorem Entries_find_set_ne (m : Entries) (key value k0 : List Nat) (h : key ≠ k0) :
    Entries.find (Entries.set m key value) k0 = Entries.find m k0 := by
  induction m with
  | nil => simp [Entries.set, Entries.find, h]
  | cons e m ih =>
    obtain ⟨k, v⟩ := e
    simp only [Entries.set]
    by_cases hk : k = key
    · rw [if_pos hk]
      have hk0 : ¬ k = k0 := fun e => h (hk.symm.trans e)
      simp only [Entries.find, if_neg hk0]
    · rw [if_neg hk]
      by_cases hk0 : k = k0
      · simp only [Entries.find, if_pos hk0]
      · simp only [Entries.find, if_neg hk0]; exact ih

theorem reloadLines_keeps_value (lines : List (List Nat)) (k0 : List Nat)
    (hno : ∀ l ∈ lines, ∀ v, parseLine l ≠ LineResult.Entry k0 v) :
    ∀ (acc m : Entries), reloadLines lines acc = some m →
      Entries.find m k0 = Entries.find acc k0 := by
  induction lines with
  | nil =>
    intro acc m h
    simp only [reloadLines, Option.some.injEq] at h
    rw [h]
  | cons l lines ih =>
    intro acc m h
    have hno2 : ∀ l2 ∈ lines, ∀ v, parseLine l2 ≠ LineResult.Entry k0 v :=
      fun l2 h2 => hno l2 (List.mem_cons_of_mem l h2)
    unfold reloadLines at h
    cases hp : parseLine l with
    | Ignored => rw [hp] at h; exact ih hno2 acc m h
    | Malformed => rw [hp] at h; simp at h
    | Entry e v =>
      rw [hp] at h
      have hne : e ≠ k0 := by
        intro he
        exact hno l (List.mem_cons_self l lines) v (by rw [hp, he])
      rw [ih hno2 _ m h, Entries_find_set_ne acc e v k0 hne]

theorem reloadLines_append (L1 L2 : List (List Nat)) :
    ∀ (acc m : Entries), reloadLines (L1 ++ L2) acc = some m →
      ∃ acc1, reloadLines L1 acc = some acc1 ∧ reloadLines L2 acc1 = some m := by
  induction L1 with
  | nil => intro acc m h; exact ⟨acc, rfl, h⟩
  | cons l L1 ih =>
    intro acc m h
    simp only [List.cons_append, reloadLines] at h
    cases hp : parseLine l with
    | Ignored =>
      rw [hp] at h
      obtain ⟨acc1, h1, h2⟩ := ih acc m h
      exact ⟨acc1, by simp only [reloadLines, hp]; exact h1, h2⟩
    | Malformed => rw [hp] at h; simp at h
    | Entry e v =>
      rw [hp] at h
      obtain ⟨acc1, h1, h2⟩ := ih _ m h
      exact ⟨acc1, by simp only [reloadLines, hp]; exact h1, h2⟩

/-- C13: key and value extraction in `Config::Reload`. For a line that is
not ignored and whose first `=` follows the text `key`, the stored key is
`key` lower-cased with the surrounding whitespace removed, and the stored
value is the text after that `=` with the surrounding whitespace removed and
then all leading and trailing double quotes removed. What lies in between is
kept as it is: for a key written as whitespace, `k`, whitespace the stored key
is `k` lower-cased; for a value written as whitespace, quotes, `core`, quotes,
whitespace (with `core` not starting or ending with a quote, and free to hold
more `=` and whitespace next to the quotes) the stored value is `core`. The
pair is what `Reload` ends with for that key unless a later line sets the key
again. -/
theorem C13_key_value_extraction (key rest : List Nat) (hk : 61 ∉ key)
    (hig : lineIsIgnorable (key ++ 61 :: rest) = false) :
    parseLine (key ++ 61 :: rest) =
      LineResult.Entry (to_lower_copy (trim_copy key))
        (trim_copy_if (trim_copy rest) (fun b => b == 34)) ∧
    (∀ ws1 k ws2, key = ws1 ++ k ++ ws2 →
      (∀ x ∈ ws1, isspace x = true) → (∀ x ∈ ws2, isspace x = true) →
      (∀ x, k.head? = some x → isspace x = false) →
      (∀ x, k.getLast? = some x → isspace x = false) →
      to_lower_copy (trim_copy key) = to_lower_copy k) ∧
    (∀ ws1 q1 core q2 ws2, rest = ws1 ++ (q1 ++ core ++ q2) ++ ws2 →
      (∀ x ∈ ws1, isspace x = true) → (∀ x ∈ ws2, isspace x = true) →
      (∀ x ∈ q1, x = 34) → (∀ x ∈ q2, x = 34) →
      (∀ x, (q1 ++ core ++ q2).head? = some x → isspace x = false) →
      (∀ x, (q1 ++ core ++ q2).getLast? = some x → isspace x = false) →
      (∀ x, core.head? = some x → x ≠ 34) →
      (∀ x, core.getLast? = some x → x ≠ 34) →
      trim_copy_if (trim_copy rest) (fun b => b == 34) = core) ∧
    (∀ (L1 L2 : List (List Nat)) (acc m : Entries),
      reloadLines (L1 ++ (key ++ 61 :: rest) :: L2) acc = some m →
      (∀ l ∈ L2, ∀ v, parseLine l ≠ LineResult.Entry (to_lower_copy (trim_copy key)) v) →
      Entries.find m (to_lower_copy (trim_copy key))
        = some (trim_copy_if (trim_copy rest) (fun b => b == 34))) := by
  have hhead := not_ignorable_key_head key rest hig
  have hparse := parseLine_key_value key rest hk hhead.1 hhead.2
  refine ⟨hparse, ?_, ?_, ?_⟩
  · intro ws1 k ws2 hkey h1 h2 hh ht
    rw [hkey, trim_copy_core ws1 k ws2 h1 h2 hh ht]
  · intro ws1 q1 core q2 ws2 hrest h1 h2 hq1 hq2 hh ht hch hct
    rw [hrest, trim_copy_core ws1 (q1 ++ core ++ q2) ws2 h1 h2 hh ht]
    exact trim_copy_if_core (fun b => b == 34) q1 core q2
      (fun x hx => by simp [hq1 x hx]) (fun x hx => by simp [hq2 x hx])
      (fun x hx => by simpa using hch x hx) (fun x hx => by simpa using hct x hx)
  · intro L1 L2 acc m h hno
    obtain ⟨acc1, _, h2⟩ := reloadLines_append L1 ((key ++ 61 :: rest) :: L2) acc m h
    simp only [reloadLines, hparse] at h2
    rw [reloadLines_keeps_value L2 _ hno _ m h2, Entries_find_set_self]

/-- Witness of C13: the line `  Rate.Value = " a=b "  ` stores the key
`rate.value` with the value ` a=b ` (the blanks inside the quotes included). -/
theorem C13_key_value_extraction_witness :
    parseLine (bytes "  Rate.Value " ++ 61 :: bytes " \" a=b \"  ") =
        LineResult.Entry (bytes "rate.value") (bytes " a=b ") ∧
    trim_copy_if (trim_copy (bytes " \" a=b \"  ")) (fun b => b == 34) = bytes " a=b " :=
  ⟨(C13_key_value_extraction (bytes "  Rate.Value ") (bytes " \" a=b \"  ")
      (by decide) (by decide)).1.trans (by decide),
    (C13_key_value_extraction (bytes "  Rate.Value ") (bytes " \" a=b \"  ")
      (by decide) (by decide)).2.2.1 (bytes " ") (bytes "\"") (bytes " a=b ") (bytes "\"")
      (bytes "  ") (by decide) (by decide) (by decide) (by decide) (by decide)
      (fun x hx => by
        have hx2 : x = 34 := (Option.some.inj hx).symm
        rw [hx2]; decide)
      (fun x hx => by
        have hx2 : x = 34 := (Option.some.inj hx).symm
        rw [hx2]; decide)
      (fun x hx => by
        have hx2 : x = 32 := (Option.some.inj hx).symm
        rw [hx2]; decide)
      (fun x hx => by
        have hx2 : x = 32 := (Option.some.inj hx).symm
        rw [hx2]; decide)⟩

/-- C14: `Config::GetBoolDefault(name, def)` returns `def` when the name is
not set; when the name is set, it returns true exactly if the stored value,
lower-cased, is `true`, `1` or `yes` (so false for every other stored value),
whatever `def` is. -/
theorem C14_get_bool_default (cfg : Config) (name : List Nat) (d : Bool) :
    (cfg.IsSet name = false → cfg.GetBoolDefault name d = d) ∧
    (∀ v, Entries.find cfg.m_entries (to_lower_copy name) = some v →
      cfg.IsSet name = true ∧
      (cfg.GetBoolDefault name d = true ↔
        (to_lower_copy v = bytes "true" ∨ to_lower_copy v = bytes "1" ∨
          to_lower_copy v = bytes "yes"))) := by
  constructor
  · intro h
    have hnone : Entries.find cfg.m_entries (to_lower_copy name) = none := by
      simpa [Config.IsSet] using h
    cases d with
    | true =>
      simp only [Config.GetBoolDefault, Config.GetStringDefault, hnone, if_true]
      decide
    | false =>
      simp only [Config.GetBoolDefault, Config.GetStringDefault, hnone]
      decide
  · intro v hv
    refine ⟨by simp [Config.IsSet, hv], ?_⟩
    simp only [Config.GetBoolDefault, Config.GetStringDefault, hv,
      Bool.or_eq_true, beq_iff_eq, or_assoc]
    rfl

/-- Witness of C14: with the stored value `YES` the answer is true although
the default is false; an unset name gives the default. -/
theorem C14_get_bool_default_witness :
    Config.GetBoolDefault { m_filename := [], m_entries := [(bytes "on", bytes "YES")] }
        (bytes "On") false = true ∧
    Config.GetBoolDefault { m_filename := [], m_entries := [(bytes "on", bytes "YES")] }
        (bytes "Off") true = true :=
  ⟨((C14_get_bool_default { m_filename := [], m_entries := [(bytes "on", bytes "YES")] }
      (bytes "On") false).2 (bytes "YES") (by decide)).2.mpr (Or.inr (Or.inr (by decide))),
    (C14_get_bool_default { m_filename := [], m_entries := [(bytes "on", bytes "YES")] }
      (bytes "Off") true).1 (by decide)⟩

/-! ## Lemmas on the guild handlers -/

theorem find?_changeRankOfFirst_same (p : MemberSlot → Bool) (r : Nat)
    (hp : ∀ m r0, p (MemberSlot.ChangeRank m r0) = p m) (l : List MemberSlot) :
    (changeRankOfFirst p r l).find? p = (l.find? p).map (fun m => m.ChangeRank r) := by
  induction l with
  | nil => rfl
  | cons m ms ih =>
    by_cases hm : p m = true
    · simp [changeRankOfFirst, List.find?_cons, hm, hp]
    · simp [changeRankOfFirst, List.find?_cons, hm, ih]

theorem find?_changeRankOfFirst_other (p q : MemberSlot → Bool) (r : Nat)
    (hq : ∀ m r0, q (MemberSlot.ChangeRank m r0) = q m)
    (hpq : ∀ m, p m = true → q m = false) (l : List MemberSlot) :
    (changeRankOfFirst p r l).find? q = l.find? q := by
  induction l with
  | nil => rfl
  | cons m ms ih =>
    by_cases hm : p m = true
    · simp [changeRankOfFirst, List.find?_cons, hm, hq, hpq m hm]
    · simp [changeRankOfFirst, List.find?_cons, hm, ih]

theorem find?_name_eq (l : List MemberSlot) (name : List Nat) (slot : MemberSlot)
    (h : l.find? (fun m => m.Name == name) = some slot) : slot.Name = name := by
  have := List.find?_some h
  simpa using this

/-- A sender who is not the leader of the guild changes nothing with
`HandleGuildLeaderOpcode`. -/
theorem HandleGuildLeaderOpcode_not_leader (R : GuildRules) (player : GuildPlayer)
    (recvPacket : Cursor)
    (h : ∀ guild, player.guild = some guild → player.guid ≠ guild.m_LeaderGuid) :
    (HandleGuildLeaderOpcode R player recvPacket).2.2.1 = player.guild := by
  rcases hrd : ReadString recvPacket with ⟨_ | name0, c⟩
  · simp [HandleGuildLeaderOpcode, hrd]
  · cases hn : R.normalizePlayerName name0 with
    | none => simp [HandleGuildLeaderOpcode, hrd, hn]
    | some name =>
      cases hg : player.guild with
      | none => simp [HandleGuildLeaderOpcode, hrd, hn, hg]
      | some guild =>
        have hl := h guild hg
        simp [HandleGuildLeaderOpcode, hrd, hn, hg, hl]

/-- The hand-over of `HandleGuildLeaderOpcode` to a member other than the
sender: the named member becomes the leader with rank `GR_GUILDMASTER` and the
former leader gets rank `GR_OFFICER`. -/
theorem HandleGuildLeaderOpcode_other_member (R : GuildRules) (player : GuildPlayer)
    (recvPacket : Cursor) (name0 name : List Nat) (c : Cursor) (guild : Guild)
    (oldSlot slot : MemberSlot)
    (hrd : ReadString recvPacket = (Except.ok name0, c))
    (hn : R.normalizePlayerName name0 = some name)
    (hg : player.guild = some guild)
    (hleader : player.guid = guild.m_LeaderGuid)
    (hold : guild.GetMemberSlot player.guid = some oldSlot)
    (hs : guild.GetMemberSlotByName name = some slot)
    (hother : slot.guid ≠ player.guid) :
    ∃ (guild2 : Guild) (newSlot : MemberSlot),
      (HandleGuildLeaderOpcode R player recvPacket).2.2.1 = some guild2 ∧
      guild2.m_LeaderGuid = slot.guid ∧
      guild2.GetMemberSlot slot.guid = some (newSlot.ChangeRank R.GR_GUILDMASTER) ∧
      guild2.GetMemberSlot player.guid = some (oldSlot.ChangeRank R.GR_OFFICER) := by
  have hmem : slot ∈ guild.members := List.mem_of_find?_eq_some hs
  have hsome : (guild.members.find? (fun m => m.guid == slot.guid)).isSome = true := by
    rw [List.find?_isSome]
    exact ⟨slot, hmem, by simp⟩
  obtain ⟨newSlot, hnew⟩ := Option.isSome_iff_exists.mp hsome
  have hnew2 : guild.GetMemberSlot slot.guid = some newSlot := hnew
  have hset : guild.SetLeader R.GR_GUILDMASTER slot.guid =
      { guild with
        m_LeaderGuid := slot.guid,
        members := changeRankOfFirst (fun m => m.guid == slot.guid) R.GR_GUILDMASTER
          guild.members } := by
    simp [Guild.SetLeader, hnew2]
  have hres : (HandleGuildLeaderOpcode R player recvPacket).2.2.1 =
      some { guild with
        m_LeaderGuid := slot.guid,
        members := changeRankOfFirst (fun m => m.guid == player.guid) R.GR_OFFICER
          (changeRankOfFirst (fun m => m.guid == slot.guid) R.GR_GUILDMASTER
            guild.members) } := by
    simp only [HandleGuildLeaderOpcode, hrd, hn, hg, hleader, ne_eq, not_true_eq_false,
      if_false]
    rw [← hleader, hold]
    simp only [hs, hset]
  refine ⟨_, newSlot, hres, rfl, ?_, ?_⟩
  · simp only [Guild.GetMemberSlot]
    rw [find?_changeRankOfFirst_other (fun m => m.guid == player.guid)
        (fun m => m.guid == slot.guid) _ (fun _ _ => rfl),
      find?_changeRankOfFirst_same (fun m => m.guid == slot.guid) _ (fun _ _ => rfl)]
    · simp only [Guild.GetMemberSlot] at hnew2
      rw [hnew2]; rfl
    · intro m hm
      have hmg : m.guid = player.guid := by simpa using hm
      simp [hmg, Ne.symm hother]
  · simp only [Guild.GetMemberSlot]
    rw [find?_changeRankOfFirst_same (fun m => m.guid == player.guid) _ (fun _ _ => rfl),
      find?_changeRankOfFirst_other (fun m => m.guid == slot.guid)
        (fun m => m.guid == player.guid) _ (fun _ _ => rfl)]
    · simp only [Guild.GetMemberSlot] at hold
      rw [hold]; rfl
    · intro m hm
      have hmg : m.guid = slot.guid := by simpa using hm
      simp [hmg, hother]

/-- C18: evaluation of `HandleGuildLeaderOpcode` when the leader Anna names
herself. The call succeeds (the leader-changed event is broadcast); afterwards
Anna is still the leader of the guild but holds rank `GR_OFFICER`, not
`GR_GUILDMASTER`, and no member holds rank `GR_GUILDMASTER`. -/
theorem C18_leader_names_self :
    HandleGuildLeaderOpcode exampleRules exampleLeader (namePacket "Anna") =
      (Except.ok (), { buffer := bytes "Anna" ++ [0], position := 5 },
        some { exampleBigGuild with
          members := [{ guid := 1, Name := bytes "Anna", RankId := 1 },
            { guid := 2, Name := bytes "Bert", RankId := 1 },
            { guid := 3, Name := bytes "Carl", RankId := 3 },
            { guid := 4, Name := bytes "Dora", RankId := 4 }] },
        [GuildEffect.BroadcastEvent GuildEvents.GE_LEADER_CHANGED
          [bytes "Anna", bytes "Anna"]]) ∧
    exampleBigGuild.m_LeaderGuid = exampleLeader.guid ∧
    exampleRules.GR_OFFICER = 1 ∧ exampleRules.GR_GUILDMASTER = 0 := by
  refine ⟨?_, rfl, rfl, rfl⟩
  rfl

end Mangos
